import Mathlib

/-!
Verification of the blue-green reconciliation core (controller/bluegreen.go).

The Go code is embedded shallowly: machine int32 counts become Int (all code paths
here only compare, add and subtract in-range replica counts), pointer-typed values
that may be nil become Option, fallible collaborator calls return Except, and the
side effects of one reconciliation pass are recorded in an explicit trace of events.
External collaborators (persistence, service cutover, status sync, the ramp
function) are fields of an Env record, so theorems quantify over every collaborator
behaviour; repository utilities that are not part of the source file under
verification are modelled from the specification and marked as such.
-/

set_option maxHeartbeats 1000000

namespace BlueGreen

/-- A replica group (appsv1.ReplicaSet): name/namespace identity, creation timestamp
used for old-group ordering, desired count (Spec.Replicas, mutable by the core) and
available count (Status.AvailableReplicas, owned by the cluster runtime). -/
structure ReplicaSet where
  name : String
  ns : String
  creationTimestamp : Int
  specReplicas : Int
  availableReplicas : Int
deriving Repr, DecidableEq

/-- Blue-green strategy block of the rollout spec: the two traffic selector names
(bluegreen.go reads PreviewService; an empty string means no preview selector). -/
structure BlueGreenStrategy where
  previewService : String
  activeService : String
deriving Repr, DecidableEq

structure RolloutStrategy where
  blueGreenStrategy : BlueGreenStrategy
deriving Repr, DecidableEq

/-- Rollout spec: desired replica count (a nil pointer means the external default
applies) and the strategy. -/
structure RolloutSpec where
  replicas : Option Int
  strategy : RolloutStrategy
deriving Repr, DecidableEq

/-- Rollout status: the tri-state verification flag (nil, true or false). -/
structure RolloutStatus where
  verifyingPreview : Option Bool
deriving Repr, DecidableEq

structure Rollout where
  spec : RolloutSpec
  status : RolloutStatus
deriving Repr, DecidableEq

/-- A traffic selector (corev1.Service): only its selector map is read by the core. -/
structure Service where
  selector : List (String × String)
deriving Repr, DecidableEq

/-- The revision-identifier selector key (v1alpha1.DefaultRolloutUniqueLabelKey). -/
def DefaultRolloutUniqueLabelKey : String := "rollout-pod-template-hash"

/-- Errors crossing the boundary of the core: collaborator failures carried verbatim, and the
one error constructed inside the source file (the invalid scale-down request raised
by cleanupUnhealthyReplicas when the new desired count would exceed the prior one). -/
inductive GoErr where
  | external (source msg : String)
  | invalidScaleDownRequest (ns name : String) (oldCount newCount : Int)
deriving Repr, DecidableEq

/-- Observable events of one reconciliation pass: every applied scale mutation
(target group and the count written), the outcome flag of each step, and the calls
to the cleanup and status-sync collaborators. -/
inductive Event where
  | scaled (target : ReplicaSet) (count : Int)
  | newRSReconciled (scaledUp : Bool)
  | previewSvcReconciled (switched : Bool)
  | verifyingPreviewChecked (held : Bool)
  | activeSvcReconciled (switched : Bool)
  | oldRSsReconciled (scaledDown : Bool)
  | cleanupRan
  | statusSynced
deriving Repr, DecidableEq

abbrev Trace := List Event

/-- External collaborators of the core, one field per call site of bluegreen.go.
Error injection: scaleErr gives the failure, if any, of a scale-and-record call. -/
structure Env where
  getAllReplicaSetsAndSyncRevision :
    Rollout → List ReplicaSet → Bool → Except GoErr (ReplicaSet × List ReplicaSet)
  getPreviewAndActiveServices : Rollout → Except GoErr (Option Service × Option Service)
  scaleErr : ReplicaSet → Int → Rollout → Option GoErr
  newRSNewReplicas : Rollout → List ReplicaSet → ReplicaSet → Except GoErr Int
  reconcilePreviewService :
    Rollout → ReplicaSet → Option Service → Option Service → Except GoErr Bool
  reconcileActiveService :
    Rollout → ReplicaSet → Option Service → Option Service → Except GoErr Bool
  isSaturated : Rollout → ReplicaSet → Bool
  rolloutComplete : Rollout → Bool
  cleanupRollouts : List ReplicaSet → Rollout → Option GoErr
  syncRolloutStatus :
    List ReplicaSet → ReplicaSet → Option Service → Option Service → Rollout → Option GoErr

/-- Modelled from the spec: the external default for spec.desiredReplicas
(defaults.GetRolloutReplicasOrDefault falls back to the default of one). -/
def defaultReplicas : Int := 1

/-- Modelled from the spec: defaults.GetRolloutReplicasOrDefault, the rollout
desired replica count with defaults applied externally. -/
def getRolloutReplicasOrDefault (r : Rollout) : Int :=
  r.spec.replicas.getD defaultReplicas

/-- Modelled from the spec: Scale Accountant, total desired count over a collection
(replicasetutil.GetReplicaCountForReplicaSets). -/
def getReplicaCountForReplicaSets (rss : List ReplicaSet) : Int :=
  (rss.map (fun rs => rs.specReplicas)).sum

/-- Modelled from the spec: Scale Accountant, total available count over a
collection (replicasetutil.GetAvailableReplicaCountForReplicaSets). -/
def getAvailableReplicaCountForReplicaSets (rss : List ReplicaSet) : Int :=
  (rss.map (fun rs => rs.availableReplicas)).sum

/-- Modelled from the spec: the Scale-And-Record collaborator. It applies the count
to the target group and reports whether a real change happened (idempotent: no-op
when the count already matches); the environment chooses whether the call fails. -/
def scaleReplicaSetAndRecordEvent (env : Env) (rs : ReplicaSet) (newScale : Int)
    (rollout : Rollout) : Except GoErr (Bool × ReplicaSet) :=
  match env.scaleErr rs newScale rollout with
  | some e => .error e
  | none => .ok (rs.specReplicas != newScale, { rs with specReplicas := newScale })

/-- Modelled from the spec: the external filter keeping only old groups that are
still active (controller.FilterActiveReplicaSets keeps groups with a positive
desired count, groups that have or ought to have pods). -/
def filterActiveReplicaSets (rss : List ReplicaSet) : List ReplicaSet :=
  rss.filter (fun rs => 0 < rs.specReplicas)

/-- Reflexive closure of the comparator of controller.ReplicaSetsByCreationTimestamp:
earlier creation timestamp first, name as the tie-break. -/
def rsLE (a b : ReplicaSet) : Prop :=
  a.creationTimestamp < b.creationTimestamp ∨
    (a.creationTimestamp = b.creationTimestamp ∧ a.name ≤ b.name)

instance : DecidableRel rsLE := fun a b => by
  unfold rsLE; infer_instance

instance : IsTotal ReplicaSet rsLE where
  total a b := by
    rcases lt_trichotomy a.creationTimestamp b.creationTimestamp with h | h | h
    · exact Or.inl (Or.inl h)
    · rcases le_total a.name b.name with hn | hn
      · exact Or.inl (Or.inr ⟨h, hn⟩)
      · exact Or.inr (Or.inr ⟨h.symm, hn⟩)
    · exact Or.inr (Or.inl h)

instance : IsTrans ReplicaSet rsLE where
  trans a b c hab hbc := by
    rcases hab with hab | ⟨hab, han⟩
    · rcases hbc with hbc | ⟨hbc, _⟩
      · exact Or.inl (hab.trans hbc)
      · exact Or.inl (hbc ▸ hab)
    · rcases hbc with hbc | ⟨hbc, hbn⟩
      · exact Or.inl (hab ▸ hbc)
      · exact Or.inr ⟨hab.trans hbc, han.trans hbn⟩

/-- The sort applied to old groups before eviction and scale-down
(sort.Sort with controller.ReplicaSetsByCreationTimestamp). -/
def sortByCreationTimestamp (rss : List ReplicaSet) : List ReplicaSet :=
  List.insertionSort rsLE rss

/-- Embeds reconcileVerifyingPreview (bluegreen.go lines 82 to 95). The outer
Option models partiality: the result is none exactly when the Go code would
dereference a nil active service pointer. Note the order of the checks: an empty
preview service name returns false before the active selector is touched. -/
def reconcileVerifyingPreview (activeSvc : Option Service) (rollout : Rollout) :
    Option Bool :=
  if rollout.spec.strategy.blueGreenStrategy.previewService = "" then
    some false
  else
    match activeSvc with
    | none => none
    | some svc =>
      if (svc.selector.lookup DefaultRolloutUniqueLabelKey).isSome = false then
        some false
      else
        match rollout.status.verifyingPreview with
        | none => some false
        | some b => some b

/-- Embeds reconcileNewReplicaSet (bluegreen.go lines 97 to 114): no-op when the
new group already has the rollout desired count, direct scale-down when above it,
otherwise the count computed by the ramp function is applied. The trace records
the scale call that was applied, if any. -/
def reconcileNewReplicaSet (env : Env) (allRSs : List ReplicaSet) (newRS : ReplicaSet)
    (rollout : Rollout) : Except GoErr Bool × Trace :=
  let rolloutReplicas := getRolloutReplicasOrDefault rollout
  if newRS.specReplicas = rolloutReplicas then
    (.ok false, [])
  else if newRS.specReplicas > rolloutReplicas then
    match scaleReplicaSetAndRecordEvent env newRS rolloutReplicas rollout with
    | .error e => (.error e, [])
    | .ok (scaled, _) => (.ok scaled, [.scaled newRS rolloutReplicas])
  else
    match env.newRSNewReplicas rollout allRSs newRS with
    | .error e => (.error e, [])
    | .ok newReplicasCount =>
      match scaleReplicaSetAndRecordEvent env newRS newReplicasCount rollout with
      | .error e => (.error e, [])
      | .ok (scaled, _) => (.ok scaled, [.scaled newRS newReplicasCount])

/-- Embeds the loop body of cleanupUnhealthyReplicas (bluegreen.go lines 155 to
179), iterating over the already-sorted old groups. The accumulators mirror the Go
locals: the updated slice built so far, totalScaledDown, and the trace of applied
scale calls. On the invariant violation the function returns nil, zero and the
fatal error; on a scale failure it returns nil, the count so far and the error. -/
def cleanupLoop (env : Env) (rollout : Rollout) :
    List ReplicaSet → List ReplicaSet → Int → Trace →
      (List ReplicaSet × Int × Option GoErr) × Trace
  | [], done, total, tr => ((done, total, none), tr)
  | targetRS :: rest, done, total, tr =>
    if targetRS.specReplicas = 0 then
      cleanupLoop env rollout rest (done ++ [targetRS]) total tr
    else if targetRS.specReplicas = targetRS.availableReplicas then
      cleanupLoop env rollout rest (done ++ [targetRS]) total tr
    else
      let scaledDownCount := targetRS.specReplicas - targetRS.availableReplicas
      let newReplicasCount := targetRS.availableReplicas
      if newReplicasCount > targetRS.specReplicas then
        (([], 0, some (GoErr.invalidScaleDownRequest targetRS.ns targetRS.name
            targetRS.specReplicas newReplicasCount)), tr)
      else
        match scaleReplicaSetAndRecordEvent env targetRS newReplicasCount rollout with
        | .error e => (([], total, some e), tr)
        | .ok (_, updatedOldRS) =>
          cleanupLoop env rollout rest (done ++ [updatedOldRS])
            (total + scaledDownCount) (tr ++ [.scaled targetRS newReplicasCount])

/-- Embeds cleanupUnhealthyReplicas (bluegreen.go lines 150 to 180): sort the old
groups oldest first, then run the eviction loop. -/
def cleanupUnhealthyReplicas (env : Env) (oldRSs : List ReplicaSet) (rollout : Rollout) :
    (List ReplicaSet × Int × Option GoErr) × Trace :=
  cleanupLoop env rollout (sortByCreationTimestamp oldRSs) [] 0 []

/-- Embeds the loop body of scaleDownOldReplicaSetsForBlueGreen (bluegreen.go lines
193 to 208): every old group with a nonzero desired count is scaled to zero and its
full prior desired count accumulated; the changed flag of the collaborator is
discarded. On a scale failure the count so far is returned with the error. -/
def scaleDownLoop (env : Env) (rollout : Rollout) :
    List ReplicaSet → Int → Trace → (Int × Option GoErr) × Trace
  | [], total, tr => ((total, none), tr)
  | targetRS :: rest, total, tr =>
    if targetRS.specReplicas = 0 then
      scaleDownLoop env rollout rest total tr
    else
      let scaleDownCount := targetRS.specReplicas
      match scaleReplicaSetAndRecordEvent env targetRS 0 rollout with
      | .error e => ((total, some e), tr)
      | .ok _ =>
        scaleDownLoop env rollout rest (total + scaleDownCount) (tr ++ [.scaled targetRS 0])

/-- Embeds scaleDownOldReplicaSetsForBlueGreen (bluegreen.go lines 183 to 211): a
no-op returning zero unless the total available count across the full group set
strictly exceeds the rollout desired count, otherwise the sorted scale-to-zero loop. -/
def scaleDownOldReplicaSetsForBlueGreen (env : Env) (allRSs oldRSs : List ReplicaSet)
    (rollout : Rollout) : (Int × Option GoErr) × Trace :=
  let availablePodCount := getAvailableReplicaCountForReplicaSets allRSs
  if availablePodCount ≤ getRolloutReplicasOrDefault rollout then
    ((0, none), [])
  else
    scaleDownLoop env rollout (sortByCreationTimestamp oldRSs) 0 []

/-- Embeds reconcileOldReplicaSets (bluegreen.go lines 116 to 147). Note the two
swallowing branches of the source: an error from cleanupUnhealthyReplicas and an
error from scaleDownOldReplicaSetsForBlueGreen are each replaced by the pair of
false and a nil error. The group set handed to the scale-down step is the updated
old list returned by the eviction step plus the new group. -/
def reconcileOldReplicaSets (env : Env) (allRSs oldRSs : List ReplicaSet)
    (newRS : ReplicaSet) (rollout : Rollout) : Except GoErr Bool × Trace :=
  let oldPodsCount := getReplicaCountForReplicaSets oldRSs
  if oldPodsCount = 0 then
    (.ok false, [])
  else if env.isSaturated rollout newRS = false then
    (.ok false, [])
  else
    match cleanupUnhealthyReplicas env oldRSs rollout with
    | ((_, _, some _), tr) => (.ok false, tr)
    | ((oldRSs2, cleanupCount, none), tr) =>
      let allRSs2 := oldRSs2 ++ [newRS]
      match scaleDownOldReplicaSetsForBlueGreen env allRSs2 oldRSs2 rollout with
      | ((_, some _), tr2) => (.ok false, tr ++ tr2)
      | ((scaledDownCount, none), tr2) =>
        (.ok (decide (cleanupCount + scaledDownCount > 0)), tr ++ tr2)

/-- Embeds the part of rolloutBlueGreen after the verification gate (bluegreen.go
lines 57 to 79): active cutover, old-group reconciliation, terminal cleanup and the
final status sync. The argument tr is the trace accumulated before this point. -/
def rolloutBlueGreenTail (env : Env) (r : Rollout) (allRSs : List ReplicaSet)
    (newRS : ReplicaSet) (oldRSs : List ReplicaSet) (previewSvc activeSvc : Option Service)
    (tr : Trace) : Trace × Option GoErr :=
  match env.reconcileActiveService r newRS previewSvc activeSvc with
  | .error e => (tr, some e)
  | .ok switchActiveSvc =>
    let tr1 := tr ++ [Event.activeSvcReconciled switchActiveSvc]
    if switchActiveSvc then
      (tr1 ++ [Event.statusSynced], env.syncRolloutStatus allRSs newRS previewSvc activeSvc r)
    else
      match reconcileOldReplicaSets env allRSs (filterActiveReplicaSets oldRSs) newRS r with
      | (.error e, trOld) => (tr1 ++ trOld, some e)
      | (.ok scaledDown, trOld) =>
        let tr2 := tr1 ++ trOld ++ [Event.oldRSsReconciled scaledDown]
        if scaledDown then
          (tr2 ++ [Event.statusSynced], env.syncRolloutStatus allRSs newRS previewSvc activeSvc r)
        else
          if env.rolloutComplete r then
            match env.cleanupRollouts oldRSs r with
            | some e => (tr2 ++ [Event.cleanupRan], some e)
            | none =>
              (tr2 ++ [Event.cleanupRan, Event.statusSynced],
                env.syncRolloutStatus allRSs newRS previewSvc activeSvc r)
          else
            (tr2 ++ [Event.statusSynced], env.syncRolloutStatus allRSs newRS previewSvc activeSvc r)

/-- Embeds rolloutBlueGreen (bluegreen.go lines 22 to 80): the full reconciliation
pass. The outer Option models partiality: none is the nil-pointer dereference of
the verification gate (a configured preview selector with a nil active service).
Otherwise the pass yields its trace and the error returned to the caller, if any. -/
def rolloutBlueGreen (env : Env) (r : Rollout) (rsList : List ReplicaSet) :
    Option (Trace × Option GoErr) :=
  match env.getAllReplicaSetsAndSyncRevision r rsList true with
  | .error e => some ([], some e)
  | .ok (newRS, oldRSs) =>
    match env.getPreviewAndActiveServices r with
    | .error e => some ([], some e)
    | .ok (previewSvc, activeSvc) =>
      let allRSs := oldRSs ++ [newRS]
      match reconcileNewReplicaSet env allRSs newRS r with
      | (.error e, tr) => some (tr, some e)
      | (.ok scaledUp, tr) =>
        let tr1 := tr ++ [Event.newRSReconciled scaledUp]
        if scaledUp then
          some (tr1 ++ [Event.statusSynced],
            env.syncRolloutStatus allRSs newRS previewSvc activeSvc r)
        else
          match previewSvc with
          | some _ =>
            match env.reconcilePreviewService r newRS previewSvc activeSvc with
            | .error e => some (tr1, some e)
            | .ok switchPreviewSvc =>
              let tr2 := tr1 ++ [Event.previewSvcReconciled switchPreviewSvc]
              if switchPreviewSvc then
                some (tr2 ++ [Event.statusSynced],
                  env.syncRolloutStatus allRSs newRS previewSvc activeSvc r)
              else
                match reconcileVerifyingPreview activeSvc r with
                | none => none
                | some verfyingPreview =>
                  let tr3 := tr2 ++ [Event.verifyingPreviewChecked verfyingPreview]
                  if verfyingPreview then
                    some (tr3 ++ [Event.statusSynced],
                      env.syncRolloutStatus allRSs newRS previewSvc activeSvc r)
                  else
                    some (rolloutBlueGreenTail env r allRSs newRS oldRSs previewSvc activeSvc tr3)
          | none =>
            some (rolloutBlueGreenTail env r allRSs newRS oldRSs previewSvc activeSvc tr1)

/-- Replays the scale mutations recorded in an event onto a stored group
collection: a scaled event writes the desired count of every group with the same
name and namespace; available counts are owned by the cluster runtime and remain
unchanged. -/
def applyEvent (rss : List ReplicaSet) : Event → List ReplicaSet
  | .scaled target count =>
    rss.map (fun rs =>
      if rs.name = target.name ∧ rs.ns = target.ns then
        { rs with specReplicas := count }
      else rs)
  | _ => rss

/-- The post-pass state of the store: a trace of events replayed in order. -/
def applyTrace (rss : List ReplicaSet) (tr : Trace) : List ReplicaSet :=
  tr.foldl applyEvent rss

/-- An event with which a step of the pass reports that it mutated state. -/
def isMutStep : Event → Bool
  | .newRSReconciled b => b
  | .previewSvcReconciled b => b
  | .activeSvcReconciled b => b
  | .oldRSsReconciled b => b
  | _ => false

/-- Checks the short-circuit shape of a pass trace: at the first step event that
reports a mutation, the remainder of the trace must be exactly the final status
sync. -/
def passShape : Trace → Bool
  | [] => true
  | e :: rest => if isMutStep e then rest == [Event.statusSynced] else passShape rest

/-- Checks that a trace ends with the status-sync event. -/
def endsSynced : Trace → Bool
  | [] => false
  | [e] => e == Event.statusSynced
  | _ :: rest => endsSynced rest

/-- The targets of the applied scale mutations of a trace, in application order. -/
def scaledTargets : Trace → List ReplicaSet :=
  List.filterMap (fun e => match e with | .scaled rs _ => some rs | _ => none)

/-- Concrete new group at the rollout desired count, fully available. -/
def newRS0 : ReplicaSet := ⟨"new", "default", 10, 1, 1⟩

/-- Concrete old group, fully healthy. -/
def oldRS0 : ReplicaSet := ⟨"old-a", "default", 1, 5, 5⟩

/-- Concrete old group with unhealthy replicas (available below desired). -/
def oldRS1 : ReplicaSet := ⟨"old-b", "default", 2, 3, 1⟩

/-- Concrete old group with desired count but no available replicas. -/
def oldRSfat : ReplicaSet := ⟨"old-a", "default", 1, 5, 0⟩

/-- Concrete rollout without a preview selector, desired count one. -/
def rollout0 : Rollout := ⟨⟨some 1, ⟨⟨"", "active"⟩⟩⟩, ⟨none⟩⟩

/-- Concrete rollout with a preview selector and the verification gate held. -/
def rolloutPrev : Rollout := ⟨⟨some 1, ⟨⟨"preview", "active"⟩⟩⟩, ⟨some true⟩⟩

/-- Concrete active service whose selector carries the revision key. -/
def activeSvc0 : Service := ⟨[(DefaultRolloutUniqueLabelKey, "abc")]⟩

/-- Concrete preview service. -/
def previewSvc0 : Service := ⟨[]⟩

/-- Environment in which every collaborator succeeds. -/
def okEnv : Env where
  getAllReplicaSetsAndSyncRevision := fun _ _ _ => .ok (newRS0, [oldRS0])
  getPreviewAndActiveServices := fun _ => .ok (none, some activeSvc0)
  scaleErr := fun _ _ _ => none
  newRSNewReplicas := fun _ _ newRS => .ok (newRS.specReplicas + 1)
  reconcilePreviewService := fun _ _ _ _ => .ok false
  reconcileActiveService := fun _ _ _ _ => .ok false
  isSaturated := fun _ _ => true
  rolloutComplete := fun _ => false
  cleanupRollouts := fun _ _ => none
  syncRolloutStatus := fun _ _ _ _ _ => none

/-- Environment in which only the scale-and-record collaborator fails. -/
def scaleFailEnv : Env :=
  { okEnv with scaleErr := fun _ _ _ => some (GoErr.external "scale" "boom") }

/-- Environment in which only the revision-sync collaborator fails. -/
def revFailEnv : Env :=
  { okEnv with
    getAllReplicaSetsAndSyncRevision := fun _ _ _ => .error (GoErr.external "rev" "boom"),
    getPreviewAndActiveServices := fun _ => .ok (some previewSvc0, some activeSvc0) }

/-- Environment in which every collaborator succeeds and both services are
configured. -/
def gateEnv : Env :=
  { okEnv with
    getPreviewAndActiveServices := fun _ => .ok (some previewSvc0, some activeSvc0) }

/-- Environment in which scaling to zero fails and every other collaborator
succeeds. -/
def scaleDownFailEnv : Env :=
  { okEnv with
    scaleErr := fun _ c _ =>
      if c = 0 then some (GoErr.external "scale" "boom") else none }

/-- Environment in which only the service lookup fails. -/
def svcFailEnv : Env :=
  { okEnv with
    getPreviewAndActiveServices := fun _ => .error (GoErr.external "svc" "boom") }

/-- Environment in which only the ramp function fails. -/
def rampFailEnv : Env :=
  { okEnv with
    newRSNewReplicas := fun _ _ _ => .error (GoErr.external "ramp" "boom") }

/-- Environment in which only the preview cutover fails; both services are
configured. -/
def prevFailEnv : Env :=
  { gateEnv with
    reconcilePreviewService := fun _ _ _ _ => .error (GoErr.external "prev" "boom") }

/-- Environment in which only the active cutover fails. -/
def actFailEnv : Env :=
  { okEnv with
    reconcileActiveService := fun _ _ _ _ => .error (GoErr.external "act" "boom") }

/-- Environment in which the rollout is complete and the cleanup collaborator
fails. -/
def cleanupFailEnv : Env :=
  { okEnv with
    rolloutComplete := fun _ => true,
    cleanupRollouts := fun _ _ => some (GoErr.external "cleanup" "boom") }

/-- Concrete rollout without a preview selector, desired count three. -/
def rollout3 : Rollout := ⟨⟨some 3, ⟨⟨"", "active"⟩⟩⟩, ⟨none⟩⟩

/-! ## Theorems -/

theorem applyEvent_available (rss : List ReplicaSet) (e : Event) :
    getAvailableReplicaCountForReplicaSets (applyEvent rss e) =
      getAvailableReplicaCountForReplicaSets rss := by
  cases e with
  | scaled target count =>
    simp only [applyEvent, getAvailableReplicaCountForReplicaSets, List.map_map]
    congr 1
    apply List.map_congr_left
    intro rs _
    by_cases h : rs.name = target.name ∧ rs.ns = target.ns <;> simp [h]
  | newRSReconciled b => rfl
  | previewSvcReconciled b => rfl
  | verifyingPreviewChecked b => rfl
  | activeSvcReconciled b => rfl
  | oldRSsReconciled b => rfl
  | cleanupRan => rfl
  | statusSynced => rfl

theorem applyTrace_available (tr : Trace) :
    ∀ rss : List ReplicaSet,
      getAvailableReplicaCountForReplicaSets (applyTrace rss tr) =
        getAvailableReplicaCountForReplicaSets rss := by
  induction tr with
  | nil => intro rss; rfl
  | cons e rest ih =>
    intro rss
    simpa [applyTrace, List.foldl_cons] using
      (ih (applyEvent rss e)).trans (applyEvent_available rss e)

/-- Claim C1: capacity safety of the Safe Scale-Down Step. The step mutates
nothing and returns zero unless the total available count across the full group
set strictly exceeds the rollout desired count, and whenever the step records any
mutation, the total available count of the post-pass group set stays at or above
the rollout desired count. -/
theorem scaleDown_capacity_safety (env : Env) (allRSs oldRSs : List ReplicaSet)
    (rollout : Rollout) :
    (getAvailableReplicaCountForReplicaSets allRSs ≤ getRolloutReplicasOrDefault rollout →
      scaleDownOldReplicaSetsForBlueGreen env allRSs oldRSs rollout = ((0, none), [])) ∧
    ((scaleDownOldReplicaSetsForBlueGreen env allRSs oldRSs rollout).2 ≠ [] →
      getRolloutReplicasOrDefault rollout ≤
        getAvailableReplicaCountForReplicaSets
          (applyTrace allRSs (scaleDownOldReplicaSetsForBlueGreen env allRSs oldRSs rollout).2)) := by
  constructor
  · intro h
    simp [scaleDownOldReplicaSetsForBlueGreen, h]
  · intro h
    rw [applyTrace_available]
    by_contra hlt
    push_neg at hlt
    exact h (by simp [scaleDownOldReplicaSetsForBlueGreen, le_of_lt hlt])

/-- Witness for C1: both conjuncts applied at concrete inputs. -/
theorem scaleDown_capacity_safety_witness :
    (getAvailableReplicaCountForReplicaSets [oldRSfat] ≤ getRolloutReplicasOrDefault rollout0 ∧
      scaleDownOldReplicaSetsForBlueGreen okEnv [oldRSfat] [oldRSfat] rollout0 = ((0, none), [])) ∧
    ((scaleDownOldReplicaSetsForBlueGreen okEnv [oldRS0, newRS0] [oldRS0] rollout0).2 ≠ [] ∧
      getRolloutReplicasOrDefault rollout0 ≤
        getAvailableReplicaCountForReplicaSets
          (applyTrace [oldRS0, newRS0]
            (scaleDownOldReplicaSetsForBlueGreen okEnv [oldRS0, newRS0] [oldRS0] rollout0).2)) :=
  ⟨⟨by decide, (scaleDown_capacity_safety okEnv [oldRSfat] [oldRSfat] rollout0).1 (by decide)⟩,
   ⟨by decide, (scaleDown_capacity_safety okEnv [oldRS0, newRS0] [oldRS0] rollout0).2 (by decide)⟩⟩

/-- Claim C5: the preview verification gate is a pure predicate that holds exactly
when the preview selector name is non-empty, the active selector map carries the
revision key, and the verification flag is present and true; any missing condition
yields false. The embedding takes the active service as a value, the nil-pointer
case being the subject of the separate totality claim. -/
theorem reconcileVerifyingPreview_gate_iff (svc : Service) (rollout : Rollout) :
    reconcileVerifyingPreview (some svc) rollout =
      some (decide (rollout.spec.strategy.blueGreenStrategy.previewService ≠ "" ∧
        (svc.selector.lookup DefaultRolloutUniqueLabelKey).isSome = true ∧
        rollout.status.verifyingPreview = some true)) := by
  unfold reconcileVerifyingPreview
  by_cases h1 : rollout.spec.strategy.blueGreenStrategy.previewService = ""
  · simp [h1]
  · by_cases h2 : (svc.selector.lookup DefaultRolloutUniqueLabelKey).isSome = true
    · cases h3 : rollout.status.verifyingPreview with
      | none => simp [h1, h2, h3]
      | some b => cases b <;> simp [h1, h2, h3]
    · simp [h1, h2]

/-- Claim C9: the verification gate unconditionally dereferences the active
selector map whenever the preview selector name is non-empty, so on a nil active
service its evaluation is undefined (modelled as none) rather than false. -/
theorem reconcileVerifyingPreview_nil_active (rollout : Rollout)
    (h : rollout.spec.strategy.blueGreenStrategy.previewService ≠ "") :
    reconcileVerifyingPreview none rollout = none := by
  simp [reconcileVerifyingPreview, h]

/-- Witness for C9 at a rollout with a configured preview selector. -/
theorem reconcileVerifyingPreview_nil_active_witness :
    rolloutPrev.spec.strategy.blueGreenStrategy.previewService ≠ "" ∧
      reconcileVerifyingPreview none rolloutPrev = none :=
  ⟨by decide, reconcileVerifyingPreview_nil_active rolloutPrev (by decide)⟩

/-- Claim C6: trichotomy of the new-group scaler. At the rollout desired count it
is a no-op returning false; above it, the new group is scaled directly to the
rollout desired count; below it, the count computed by the ramp function is
applied; the returned flag reports whether a real change happened. -/
theorem reconcileNewReplicaSet_trichotomy (env : Env) (allRSs : List ReplicaSet)
    (newRS : ReplicaSet) (rollout : Rollout) :
    (newRS.specReplicas = getRolloutReplicasOrDefault rollout →
      reconcileNewReplicaSet env allRSs newRS rollout = (.ok false, [])) ∧
    (newRS.specReplicas > getRolloutReplicasOrDefault rollout →
      env.scaleErr newRS (getRolloutReplicasOrDefault rollout) rollout = none →
      reconcileNewReplicaSet env allRSs newRS rollout =
        (.ok true, [.scaled newRS (getRolloutReplicasOrDefault rollout)])) ∧
    (∀ c, newRS.specReplicas < getRolloutReplicasOrDefault rollout →
      env.newRSNewReplicas rollout allRSs newRS = .ok c →
      env.scaleErr newRS c rollout = none →
      reconcileNewReplicaSet env allRSs newRS rollout =
        (.ok (newRS.specReplicas != c), [.scaled newRS c])) := by
  refine ⟨fun h => ?_, fun h hs => ?_, fun c h hr hs => ?_⟩
  · simp [reconcileNewReplicaSet, h]
  · have hne : newRS.specReplicas ≠ getRolloutReplicasOrDefault rollout := ne_of_gt h
    simp [reconcileNewReplicaSet, hne, h, scaleReplicaSetAndRecordEvent, hs]
  · have hne : newRS.specReplicas ≠ getRolloutReplicasOrDefault rollout := ne_of_lt h
    have hng : ¬ newRS.specReplicas > getRolloutReplicasOrDefault rollout := not_lt_of_gt h
    simp [reconcileNewReplicaSet, hne, hng, hr, scaleReplicaSetAndRecordEvent, hs]

/-- Witness for C6: the three branches applied at concrete inputs. -/
theorem reconcileNewReplicaSet_trichotomy_witness :
    (newRS0.specReplicas = getRolloutReplicasOrDefault rollout0 ∧
      reconcileNewReplicaSet okEnv [newRS0] newRS0 rollout0 = (.ok false, [])) ∧
    (oldRS0.specReplicas > getRolloutReplicasOrDefault rollout0 ∧
      reconcileNewReplicaSet okEnv [oldRS0] oldRS0 rollout0 =
        (.ok true, [.scaled oldRS0 (getRolloutReplicasOrDefault rollout0)])) ∧
    (⟨"new", "default", 10, 0, 0⟩ : ReplicaSet).specReplicas < getRolloutReplicasOrDefault rollout0 ∧
      reconcileNewReplicaSet okEnv [] ⟨"new", "default", 10, 0, 0⟩ rollout0 =
        (.ok ((0 : Int) != (1 : Int)), [.scaled ⟨"new", "default", 10, 0, 0⟩ 1]) :=
  ⟨⟨by decide, (reconcileNewReplicaSet_trichotomy okEnv [newRS0] newRS0 rollout0).1 (by decide)⟩,
   ⟨by decide, (reconcileNewReplicaSet_trichotomy okEnv [oldRS0] oldRS0 rollout0).2.1
      (by decide) rfl⟩,
   by decide,
   (reconcileNewReplicaSet_trichotomy okEnv [] ⟨"new", "default", 10, 0, 0⟩ rollout0).2.2 1
      (by decide) rfl rfl⟩

theorem scaleDownLoop_sum (env : Env) (rollout : Rollout) :
    ∀ (l : List ReplicaSet) (total : Int) (tr : Trace) (total2 : Int) (tr2 : Trace),
      scaleDownLoop env rollout l total tr = ((total2, none), tr2) →
      total2 = total +
        ((l.filter (fun rs => decide (rs.specReplicas ≠ 0))).map
          (fun rs => rs.specReplicas)).sum := by
  intro l
  induction l with
  | nil =>
    intro total tr total2 tr2 h
    simp only [scaleDownLoop, Prod.mk.injEq] at h
    simp [h.1.1]
  | cons rs rest ih =>
    intro total tr total2 tr2 h
    by_cases h0 : rs.specReplicas = 0
    · simp only [scaleDownLoop, if_pos h0] at h
      have := ih _ _ _ _ h
      simp [h0, this]
    · cases hs : env.scaleErr rs 0 rollout with
      | some e =>
        simp only [scaleDownLoop, if_neg h0, scaleReplicaSetAndRecordEvent, hs,
          Prod.mk.injEq] at h
        exact absurd h.1.2 (by simp)
      | none =>
        simp only [scaleDownLoop, if_neg h0, scaleReplicaSetAndRecordEvent, hs] at h
        have := ih _ _ _ _ h
        have hfe : (rs :: rest).filter (fun rs => decide (rs.specReplicas ≠ 0)) =
            rs :: rest.filter (fun rs => decide (rs.specReplicas ≠ 0)) := by
          simp [List.filter_cons, h0]
        rw [hfe]
        simp only [List.map_cons, List.sum_cons]
        omega

/-- Claim C10 (counterexample): with every collaborator succeeding, the Safe
Scale-Down Step can return zero even though an old group has a nonzero prior
desired count, because the surplus precondition fails and the loop is never
entered; so the function does not always return the sum of nonzero prior desired
counts when no collaborator error occurs. -/
theorem scaleDown_total_not_sum_cex :
    scaleDownOldReplicaSetsForBlueGreen okEnv [oldRSfat] [oldRSfat] rollout0 = ((0, none), []) ∧
    (([oldRSfat].filter (fun rs => decide (rs.specReplicas ≠ 0))).map
      (fun rs => rs.specReplicas)).sum = 5 ∧
    (∀ rs c r, okEnv.scaleErr rs c r = none) :=
  ⟨by decide, by decide, fun _ _ _ => rfl⟩

/-- Claim C10 (amended): when the surplus precondition holds (total available
strictly above the rollout desired count) and no collaborator error occurs, the
Safe Scale-Down Step returns exactly the sum of the prior desired counts of the
old groups with nonzero desired count, accumulating full prior counts with the
changed flag of the collaborator discarded. -/
theorem scaleDown_total_is_sum (env : Env) (allRSs oldRSs : List ReplicaSet)
    (rollout : Rollout) (total : Int) (tr : Trace)
    (hpre : getRolloutReplicasOrDefault rollout < getAvailableReplicaCountForReplicaSets allRSs)
    (h : scaleDownOldReplicaSetsForBlueGreen env allRSs oldRSs rollout = ((total, none), tr)) :
    total = ((oldRSs.filter (fun rs => decide (rs.specReplicas ≠ 0))).map
      (fun rs => rs.specReplicas)).sum := by
  rw [scaleDownOldReplicaSetsForBlueGreen, if_neg (not_le.mpr hpre)] at h
  have h1 := scaleDownLoop_sum env rollout (sortByCreationTimestamp oldRSs) 0 [] total tr h
  have hperm : (sortByCreationTimestamp oldRSs).Perm oldRSs := List.perm_insertionSort _ _
  have h2 := ((hperm.filter (fun rs => decide (rs.specReplicas ≠ 0))).map
    (fun rs => rs.specReplicas)).sum_eq
  rw [h1, zero_add, h2]

/-- Witness for C10 (amended) at a concrete surplus configuration. -/
theorem scaleDown_total_is_sum_witness :
    getRolloutReplicasOrDefault rollout0 < getAvailableReplicaCountForReplicaSets [oldRS0, newRS0] ∧
    scaleDownOldReplicaSetsForBlueGreen okEnv [oldRS0, newRS0] [oldRS0] rollout0 =
      ((5, none), [.scaled oldRS0 0]) ∧
    (5 : Int) = (([oldRS0].filter (fun rs => decide (rs.specReplicas ≠ 0))).map
      (fun rs => rs.specReplicas)).sum :=
  ⟨by decide, by decide,
   scaleDown_total_is_sum okEnv [oldRS0, newRS0] [oldRS0] rollout0 5 [.scaled oldRS0 0]
     (by decide) (by decide)⟩

theorem cleanupLoop_ok_characterization (env : Env) (rollout : Rollout) :
    ∀ (l done : List ReplicaSet) (total : Int) (tr : Trace) (out : List ReplicaSet)
      (total2 : Int) (tr2 : Trace),
      cleanupLoop env rollout l done total tr = ((out, total2, none), tr2) →
      ∃ upd, out = done ++ upd ∧
        List.Forall₂ (fun rs rs2 =>
          rs2 = (if rs.specReplicas = 0 ∨ rs.specReplicas = rs.availableReplicas then rs
            else { rs with specReplicas := rs.availableReplicas }) ∧
          rs2.specReplicas ≤ rs.specReplicas) l upd := by
  intro l
  induction l with
  | nil =>
    intro done total tr out total2 tr2 h
    simp only [cleanupLoop, Prod.mk.injEq] at h
    exact ⟨[], by simp [h.1.1.symm], List.Forall₂.nil⟩
  | cons rs rest ih =>
    intro done total tr out total2 tr2 h
    by_cases h0 : rs.specReplicas = 0
    · simp only [cleanupLoop, if_pos h0] at h
      obtain ⟨upd, hout, hrel⟩ := ih _ _ _ _ _ _ h
      exact ⟨rs :: upd, by simp [hout],
        List.Forall₂.cons ⟨by simp [h0], le_refl _⟩ hrel⟩
    · by_cases h1 : rs.specReplicas = rs.availableReplicas
      · simp only [cleanupLoop, if_neg h0, if_pos h1] at h
        obtain ⟨upd, hout, hrel⟩ := ih _ _ _ _ _ _ h
        exact ⟨rs :: upd, by simp [hout],
          List.Forall₂.cons ⟨by simp [h1], le_refl _⟩ hrel⟩
      · by_cases h2 : rs.availableReplicas > rs.specReplicas
        · simp only [cleanupLoop, if_neg h0, if_neg h1, if_pos h2, Prod.mk.injEq] at h
          exact absurd h.1.2.2 (by simp)
        · cases hs : env.scaleErr rs rs.availableReplicas rollout with
          | some e =>
            simp only [cleanupLoop, if_neg h0, if_neg h1, if_neg h2,
              scaleReplicaSetAndRecordEvent, hs, Prod.mk.injEq] at h
            exact absurd h.1.2.2 (by simp)
          | none =>
            simp only [cleanupLoop, if_neg h0, if_neg h1, if_neg h2,
              scaleReplicaSetAndRecordEvent, hs] at h
            obtain ⟨upd, hout, hrel⟩ := ih _ _ _ _ _ _ h
            refine ⟨{ rs with specReplicas := rs.availableReplicas } :: upd, by simp [hout],
              List.Forall₂.cons ⟨by simp [h0, h1], ?_⟩ hrel⟩
            simp only [not_lt] at h2
            simpa using h2

/-- Claim C4: monotonic eviction. On the success path every processed old group is
either skipped (zero desired count, or desired equals available) or its desired
count is set to its available count, never increasing it; a group whose available
count exceeds its desired count triggers the fatal invalid-scale-down error with
nothing applied for that group (zero count, nil collection, trace unchanged), and
any invalid-scale-down error of the step certifies that the computed new count
exceeded the prior one, provided collaborator failures are external errors. -/
theorem cleanupUnhealthyReplicas_monotonic_eviction (env : Env) (rollout : Rollout) :
    (∀ (oldRSs out : List ReplicaSet) (total2 : Int) (tr2 : Trace),
      cleanupUnhealthyReplicas env oldRSs rollout = ((out, total2, none), tr2) →
      List.Forall₂ (fun rs rs2 =>
        rs2 = (if rs.specReplicas = 0 ∨ rs.specReplicas = rs.availableReplicas then rs
          else { rs with specReplicas := rs.availableReplicas }) ∧
        rs2.specReplicas ≤ rs.specReplicas) (sortByCreationTimestamp oldRSs) out) ∧
    (∀ (rs : ReplicaSet) (rest done : List ReplicaSet) (total : Int) (tr : Trace),
      rs.specReplicas ≠ 0 → rs.specReplicas ≠ rs.availableReplicas →
      rs.specReplicas < rs.availableReplicas →
      cleanupLoop env rollout (rs :: rest) done total tr =
        (([], 0, some (GoErr.invalidScaleDownRequest rs.ns rs.name rs.specReplicas
          rs.availableReplicas)), tr)) ∧
    (∀ (l done : List ReplicaSet) (total : Int) (tr : Trace) (out : List ReplicaSet)
      (total2 : Int) (tr2 : Trace) (ns nm : String) (a b : Int),
      (∀ rs c e, env.scaleErr rs c rollout = some e → ∃ s m, e = GoErr.external s m) →
      cleanupLoop env rollout l done total tr =
        ((out, total2, some (GoErr.invalidScaleDownRequest ns nm a b)), tr2) →
      a < b ∧ out = [] ∧ total2 = 0) := by
  refine ⟨?_, ?_, ?_⟩
  · intro oldRSs out total2 tr2 h
    obtain ⟨upd, hout, hrel⟩ := cleanupLoop_ok_characterization env rollout _ _ _ _ _ _ _ h
    simpa [hout] using hrel
  · intro rs rest done total tr h0 h1 h2
    simp only [cleanupLoop, if_neg h0, if_neg h1, if_pos h2]
  · intro l
    induction l with
    | nil =>
      intro done total tr out total2 tr2 ns nm a b _ h
      simp only [cleanupLoop, Prod.mk.injEq] at h
      exact absurd h.1.2.2 (by simp)
    | cons rs rest ih =>
      intro done total tr out total2 tr2 ns nm a b hext h
      by_cases h0 : rs.specReplicas = 0
      · simp only [cleanupLoop, if_pos h0] at h
        exact ih _ _ _ _ _ _ _ _ _ _ hext h
      · by_cases h1 : rs.specReplicas = rs.availableReplicas
        · simp only [cleanupLoop, if_neg h0, if_pos h1] at h
          exact ih _ _ _ _ _ _ _ _ _ _ hext h
        · by_cases h2 : rs.availableReplicas > rs.specReplicas
          · simp only [cleanupLoop, if_neg h0, if_neg h1, if_pos h2, Prod.mk.injEq] at h
            obtain ⟨⟨hout, htotal, herr⟩, _⟩ := h
            obtain ⟨_, _, ha, hb⟩ := Option.some.inj herr |> GoErr.invalidScaleDownRequest.inj
            exact ⟨by omega, hout.symm, htotal.symm⟩
          · cases hs : env.scaleErr rs rs.availableReplicas rollout with
            | some e =>
              simp only [cleanupLoop, if_neg h0, if_neg h1, if_neg h2,
                scaleReplicaSetAndRecordEvent, hs, Prod.mk.injEq] at h
              obtain ⟨s, m, hm⟩ := hext _ _ _ hs
              rw [hm] at h
              exact absurd h.1.2.2 (by simp)
            | none =>
              simp only [cleanupLoop, if_neg h0, if_neg h1, if_neg h2,
                scaleReplicaSetAndRecordEvent, hs] at h
              exact ih _ _ _ _ _ _ _ _ _ _ hext h

/-- Witness for C4: the three conjuncts applied at concrete inputs (a healthy
group is skipped, an unhealthy one is reduced to its available count, and an
over-available group triggers the fatal error without being applied). -/
theorem cleanupUnhealthyReplicas_monotonic_eviction_witness :
    List.Forall₂ (fun rs rs2 =>
        rs2 = (if rs.specReplicas = 0 ∨ rs.specReplicas = rs.availableReplicas then rs
          else { rs with specReplicas := rs.availableReplicas }) ∧
        rs2.specReplicas ≤ rs.specReplicas)
      (sortByCreationTimestamp [oldRS1, oldRS0])
      [oldRS0, ⟨"old-b", "default", 2, 1, 1⟩] ∧
    cleanupLoop okEnv rollout0 [⟨"bad", "default", 3, 1, 2⟩] [] 0 [] =
      (([], 0, some (GoErr.invalidScaleDownRequest "default" "bad" 1 2)), []) ∧
    ((1 : Int) < 2 ∧ ([] : List ReplicaSet) = [] ∧ (0 : Int) = 0) := by
  refine ⟨?_, ?_, ?_⟩
  · exact (cleanupUnhealthyReplicas_monotonic_eviction okEnv rollout0).1
      [oldRS1, oldRS0] [oldRS0, ⟨"old-b", "default", 2, 1, 1⟩] 2 [.scaled oldRS1 1] (by decide)
  · exact (cleanupUnhealthyReplicas_monotonic_eviction okEnv rollout0).2.1
      ⟨"bad", "default", 3, 1, 2⟩ [] [] 0 [] (by decide) (by decide) (by decide)
  · exact (cleanupUnhealthyReplicas_monotonic_eviction okEnv rollout0).2.2
      [⟨"bad", "default", 3, 1, 2⟩] [] 0 [] [] 0 [] "default" "bad" 1 2
      (fun rs c e h => by simp [okEnv] at h) (by decide)

theorem scaledTargets_append (l1 l2 : Trace) :
    scaledTargets (l1 ++ l2) = scaledTargets l1 ++ scaledTargets l2 :=
  List.filterMap_append l1 l2 _

theorem cleanupLoop_targets (env : Env) (rollout : Rollout) :
    ∀ (l done : List ReplicaSet) (total : Int) (tr : Trace),
      ∃ s, scaledTargets (cleanupLoop env rollout l done total tr).2 =
        scaledTargets tr ++ s ∧ s.Sublist l := by
  intro l
  induction l with
  | nil =>
    intro done total tr
    exact ⟨[], by simp [cleanupLoop], List.nil_sublist _⟩
  | cons rs rest ih =>
    intro done total tr
    by_cases h0 : rs.specReplicas = 0
    · obtain ⟨s, hs, hsub⟩ := ih (done ++ [rs]) total tr
      exact ⟨s, by simpa only [cleanupLoop, if_pos h0] using hs, hsub.cons rs⟩
    · by_cases h1 : rs.specReplicas = rs.availableReplicas
      · obtain ⟨s, hs, hsub⟩ := ih (done ++ [rs]) total tr
        exact ⟨s, by simpa only [cleanupLoop, if_neg h0, if_pos h1] using hs, hsub.cons rs⟩
      · by_cases h2 : rs.availableReplicas > rs.specReplicas
        · exact ⟨[], by simp [cleanupLoop, if_neg h0, if_neg h1, if_pos h2],
            List.nil_sublist _⟩
        · cases hs : env.scaleErr rs rs.availableReplicas rollout with
          | some e =>
            refine ⟨[], ?_, List.nil_sublist _⟩
            simp [cleanupLoop, if_neg h0, if_neg h1, if_neg h2,
              scaleReplicaSetAndRecordEvent, hs]
          | none =>
            obtain ⟨s, hseq, hsub⟩ :=
              ih (done ++ [{ rs with specReplicas := rs.availableReplicas }])
                (total + (rs.specReplicas - rs.availableReplicas))
                (tr ++ [.scaled rs rs.availableReplicas])
            refine ⟨rs :: s, ?_, hsub.cons₂ rs⟩
            simp only [cleanupLoop, if_neg h0, if_neg h1, if_neg h2,
              scaleReplicaSetAndRecordEvent, hs]
            rw [hseq, scaledTargets_append]
            simp [scaledTargets]

theorem scaleDownLoop_targets (env : Env) (rollout : Rollout) :
    ∀ (l : List ReplicaSet) (total : Int) (tr : Trace),
      ∃ s, scaledTargets (scaleDownLoop env rollout l total tr).2 =
        scaledTargets tr ++ s ∧ s.Sublist l := by
  intro l
  induction l with
  | nil =>
    intro total tr
    exact ⟨[], by simp [scaleDownLoop], List.nil_sublist _⟩
  | cons rs rest ih =>
    intro total tr
    by_cases h0 : rs.specReplicas = 0
    · obtain ⟨s, hs, hsub⟩ := ih total tr
      exact ⟨s, by simpa only [scaleDownLoop, if_pos h0] using hs, hsub.cons rs⟩
    · cases hs : env.scaleErr rs 0 rollout with
      | some e =>
        refine ⟨[], ?_, List.nil_sublist _⟩
        simp [scaleDownLoop, if_neg h0, scaleReplicaSetAndRecordEvent, hs]
      | none =>
        obtain ⟨s, hseq, hsub⟩ := ih (total + rs.specReplicas) (tr ++ [.scaled rs 0])
        refine ⟨rs :: s, ?_, hsub.cons₂ rs⟩
        simp only [scaleDownLoop, if_neg h0, scaleReplicaSetAndRecordEvent, hs]
        rw [hseq, scaledTargets_append]
        simp [scaledTargets]

theorem sortByCreationTimestamp_pairwise_lt (l : List ReplicaSet)
    (h : l.Pairwise (fun a b => a.creationTimestamp ≠ b.creationTimestamp)) :
    (sortByCreationTimestamp l).Pairwise
      (fun a b => a.creationTimestamp < b.creationTimestamp) := by
  have hsorted : (sortByCreationTimestamp l).Pairwise rsLE :=
    List.sorted_insertionSort rsLE l
  have hperm : (sortByCreationTimestamp l).Perm l := List.perm_insertionSort rsLE l
  have hne : (sortByCreationTimestamp l).Pairwise
      (fun a b => a.creationTimestamp ≠ b.creationTimestamp) :=
    (hperm.pairwise_iff (fun hab => Ne.symm hab)).mpr h
  refine (hsorted.and hne).imp (fun hab => ?_)
  rcases hab with ⟨hle | ⟨heq, _⟩, hne2⟩
  · exact hle
  · exact absurd heq hne2

/-- Claim C8: oldest-first ordering. For old groups with pairwise distinct
creation timestamps, the scale mutations applied by the Unhealthy Eviction step
and by the Safe Scale-Down step each target groups in strictly increasing
creation-timestamp order. -/
theorem oldRS_mutations_oldest_first (env : Env) (allRSs oldRSs : List ReplicaSet)
    (rollout : Rollout)
    (h : oldRSs.Pairwise (fun a b => a.creationTimestamp ≠ b.creationTimestamp)) :
    (scaledTargets (cleanupUnhealthyReplicas env oldRSs rollout).2).Pairwise
      (fun a b => a.creationTimestamp < b.creationTimestamp) ∧
    (scaledTargets (scaleDownOldReplicaSetsForBlueGreen env allRSs oldRSs rollout).2).Pairwise
      (fun a b => a.creationTimestamp < b.creationTimestamp) := by
  have hsort := sortByCreationTimestamp_pairwise_lt oldRSs h
  constructor
  · obtain ⟨s, hs, hsub⟩ :=
      cleanupLoop_targets env rollout (sortByCreationTimestamp oldRSs) [] 0 []
    rw [cleanupUnhealthyReplicas, hs]
    simpa [scaledTargets] using hsort.sublist hsub
  · rw [scaleDownOldReplicaSetsForBlueGreen]
    by_cases hpre : getAvailableReplicaCountForReplicaSets allRSs ≤
        getRolloutReplicasOrDefault rollout
    · simp [hpre, scaledTargets]
    · obtain ⟨s, hs, hsub⟩ :=
        scaleDownLoop_targets env rollout (sortByCreationTimestamp oldRSs) 0 []
      rw [if_neg hpre, hs]
      simpa [scaledTargets] using hsort.sublist hsub

/-- Witness for C8 at two old groups with distinct creation timestamps. -/
theorem oldRS_mutations_oldest_first_witness :
    ([oldRS1, oldRS0].Pairwise (fun a b => a.creationTimestamp ≠ b.creationTimestamp)) ∧
    (scaledTargets (cleanupUnhealthyReplicas okEnv [oldRS1, oldRS0] rollout0).2).Pairwise
      (fun a b => a.creationTimestamp < b.creationTimestamp) ∧
    (scaledTargets
      (scaleDownOldReplicaSetsForBlueGreen okEnv [oldRS1, oldRS0, newRS0]
        [oldRS1, oldRS0] rollout0).2).Pairwise
      (fun a b => a.creationTimestamp < b.creationTimestamp) :=
  ⟨by decide,
   (oldRS_mutations_oldest_first okEnv [oldRS1, oldRS0, newRS0] [oldRS1, oldRS0] rollout0
     (by decide)).1,
   (oldRS_mutations_oldest_first okEnv [oldRS1, oldRS0, newRS0] [oldRS1, oldRS0] rollout0
     (by decide)).2⟩

theorem notMut_of_scaled {tr : Trace} (h : ∀ e ∈ tr, ∃ rs c, e = Event.scaled rs c) :
    ∀ e ∈ tr, isMutStep e = false := by
  intro e he
  obtain ⟨rs, c, rfl⟩ := h e he
  rfl

theorem passShape_append (l rest : Trace) (h : ∀ e ∈ l, isMutStep e = false) :
    passShape (l ++ rest) = passShape rest := by
  induction l with
  | nil => rfl
  | cons e l ih =>
    have he : isMutStep e = false := h e (by simp)
    simp only [List.cons_append, passShape, he, Bool.false_eq_true, if_false]
    exact ih (fun x hx => h x (by simp [hx]))

theorem endsSynced_concat (l : Trace) : endsSynced (l ++ [Event.statusSynced]) = true := by
  induction l with
  | nil => rfl
  | cons e l ih =>
    cases l with
    | nil => rfl
    | cons f l2 => simpa [endsSynced] using ih

theorem scaled_trace_reconcileNew (env : Env) (allRSs : List ReplicaSet)
    (newRS : ReplicaSet) (rollout : Rollout) :
    ∀ e ∈ (reconcileNewReplicaSet env allRSs newRS rollout).2,
      ∃ rs c, e = Event.scaled rs c := by
  intro e he
  by_cases h1 : newRS.specReplicas = getRolloutReplicasOrDefault rollout
  · simp [reconcileNewReplicaSet, h1] at he
  · by_cases h2 : newRS.specReplicas > getRolloutReplicasOrDefault rollout
    · cases hs : env.scaleErr newRS (getRolloutReplicasOrDefault rollout) rollout with
      | some e2 =>
        simp [reconcileNewReplicaSet, h1, h2, scaleReplicaSetAndRecordEvent, hs] at he
      | none =>
        simp [reconcileNewReplicaSet, h1, h2, scaleReplicaSetAndRecordEvent, hs] at he
        exact ⟨newRS, getRolloutReplicasOrDefault rollout, he⟩
    · cases hr : env.newRSNewReplicas rollout allRSs newRS with
      | error e2 => simp [reconcileNewReplicaSet, h1, h2, hr] at he
      | ok c =>
        cases hs : env.scaleErr newRS c rollout with
        | some e2 =>
          simp [reconcileNewReplicaSet, h1, h2, hr, scaleReplicaSetAndRecordEvent, hs] at he
        | none =>
          simp [reconcileNewReplicaSet, h1, h2, hr, scaleReplicaSetAndRecordEvent, hs] at he
          exact ⟨newRS, c, he⟩

theorem scaled_trace_cleanupLoop (env : Env) (rollout : Rollout) :
    ∀ (l done : List ReplicaSet) (total : Int) (tr : Trace),
      (∀ e ∈ tr, ∃ rs c, e = Event.scaled rs c) →
      ∀ e ∈ (cleanupLoop env rollout l done total tr).2, ∃ rs c, e = Event.scaled rs c := by
  intro l
  induction l with
  | nil =>
    intro done total tr h e he
    exact h e (by simpa [cleanupLoop] using he)
  | cons rs rest ih =>
    intro done total tr h e he
    by_cases h0 : rs.specReplicas = 0
    · exact ih _ _ _ h e (by simpa only [cleanupLoop, if_pos h0] using he)
    · by_cases h1 : rs.specReplicas = rs.availableReplicas
      · exact ih _ _ _ h e (by simpa only [cleanupLoop, if_neg h0, if_pos h1] using he)
      · by_cases h2 : rs.availableReplicas > rs.specReplicas
        · exact h e (by simpa [cleanupLoop, if_neg h0, if_neg h1, if_pos h2] using he)
        · cases hs : env.scaleErr rs rs.availableReplicas rollout with
          | some e2 =>
            refine h e ?_
            simpa [cleanupLoop, if_neg h0, if_neg h1, if_neg h2,
              scaleReplicaSetAndRecordEvent, hs] using he
          | none =>
            refine ih _ _ _ ?_ e (by
              simpa only [cleanupLoop, if_neg h0, if_neg h1, if_neg h2,
                scaleReplicaSetAndRecordEvent, hs] using he)
            intro x hx
            rcases List.mem_append.mp hx with hx | hx
            · exact h x hx
            · exact ⟨rs, rs.availableReplicas, by simpa using hx⟩

theorem scaled_trace_cleanupUnhealthy (env : Env) (oldRSs : List ReplicaSet)
    (rollout : Rollout) :
    ∀ e ∈ (cleanupUnhealthyReplicas env oldRSs rollout).2, ∃ rs c, e = Event.scaled rs c :=
  scaled_trace_cleanupLoop env rollout (sortByCreationTimestamp oldRSs) [] 0 [] (by simp)

theorem scaled_trace_scaleDownLoop (env : Env) (rollout : Rollout) :
    ∀ (l : List ReplicaSet) (total : Int) (tr : Trace),
      (∀ e ∈ tr, ∃ rs c, e = Event.scaled rs c) →
      ∀ e ∈ (scaleDownLoop env rollout l total tr).2, ∃ rs c, e = Event.scaled rs c := by
  intro l
  induction l with
  | nil =>
    intro total tr h e he
    exact h e (by simpa [scaleDownLoop] using he)
  | cons rs rest ih =>
    intro total tr h e he
    by_cases h0 : rs.specReplicas = 0
    · exact ih _ _ h e (by simpa only [scaleDownLoop, if_pos h0] using he)
    · cases hs : env.scaleErr rs 0 rollout with
      | some e2 =>
        refine h e ?_
        simpa [scaleDownLoop, if_neg h0, scaleReplicaSetAndRecordEvent, hs] using he
      | none =>
        refine ih _ _ ?_ e (by
          simpa only [scaleDownLoop, if_neg h0, scaleReplicaSetAndRecordEvent, hs] using he)
        intro x hx
        rcases List.mem_append.mp hx with hx | hx
        · exact h x hx
        · exact ⟨rs, 0, by simpa using hx⟩

theorem scaled_trace_scaleDown (env : Env) (allRSs oldRSs : List ReplicaSet)
    (rollout : Rollout) :
    ∀ e ∈ (scaleDownOldReplicaSetsForBlueGreen env allRSs oldRSs rollout).2,
      ∃ rs c, e = Event.scaled rs c := by
  intro e he
  by_cases hpre : getAvailableReplicaCountForReplicaSets allRSs ≤
      getRolloutReplicasOrDefault rollout
  · simp [scaleDownOldReplicaSetsForBlueGreen, hpre] at he
  · exact scaled_trace_scaleDownLoop env rollout (sortByCreationTimestamp oldRSs) 0 []
      (by simp) e
      (by simpa only [scaleDownOldReplicaSetsForBlueGreen, if_neg hpre] using he)

theorem scaled_trace_reconcileOld (env : Env) (allRSs oldRSs : List ReplicaSet)
    (newRS : ReplicaSet) (rollout : Rollout) :
    ∀ e ∈ (reconcileOldReplicaSets env allRSs oldRSs newRS rollout).2,
      ∃ rs c, e = Event.scaled rs c := by
  intro e he
  by_cases hg1 : getReplicaCountForReplicaSets oldRSs = 0
  · simp [reconcileOldReplicaSets, hg1] at he
  · by_cases hg2 : env.isSaturated rollout newRS = false
    · simp [reconcileOldReplicaSets, hg1, hg2] at he
    · rcases hcl : cleanupUnhealthyReplicas env oldRSs rollout with ⟨⟨out, n, errc⟩, trc⟩
      have hc := scaled_trace_cleanupUnhealthy env oldRSs rollout
      rw [hcl] at hc
      cases errc with
      | some ec =>
        refine hc e ?_
        simpa only [reconcileOldReplicaSets, if_neg hg1, if_neg hg2, hcl] using he
      | none =>
        rcases hsd : scaleDownOldReplicaSetsForBlueGreen env (out ++ [newRS]) out rollout
          with ⟨⟨m, errs⟩, trs⟩
        have hs := scaled_trace_scaleDown env (out ++ [newRS]) out rollout
        rw [hsd] at hs
        have he2 : e ∈ trc ++ trs := by
          cases errs with
          | some es =>
            simpa only [reconcileOldReplicaSets, if_neg hg1, if_neg hg2, hcl, hsd] using he
          | none =>
            simpa only [reconcileOldReplicaSets, if_neg hg1, if_neg hg2, hcl, hsd] using he
        rcases List.mem_append.mp he2 with hx | hx
        · exact hc e hx
        · exact hs e hx

theorem reconcileOldReplicaSets_isOk (env : Env) (allRSs oldRSs : List ReplicaSet)
    (newRS : ReplicaSet) (rollout : Rollout) :
    ∃ b, (reconcileOldReplicaSets env allRSs oldRSs newRS rollout).1 = .ok b := by
  by_cases hg1 : getReplicaCountForReplicaSets oldRSs = 0
  · exact ⟨false, by simp [reconcileOldReplicaSets, hg1]⟩
  · by_cases hg2 : env.isSaturated rollout newRS = false
    · exact ⟨false, by simp [reconcileOldReplicaSets, hg1, hg2]⟩
    · rcases hcl : cleanupUnhealthyReplicas env oldRSs rollout with ⟨⟨out, n, errc⟩, trc⟩
      cases errc with
      | some ec =>
        exact ⟨false, by simp only [reconcileOldReplicaSets, if_neg hg1, if_neg hg2, hcl]⟩
      | none =>
        rcases hsd : scaleDownOldReplicaSetsForBlueGreen env (out ++ [newRS]) out rollout
          with ⟨⟨m, errs⟩, trs⟩
        cases errs with
        | some es =>
          exact ⟨false, by simp only [reconcileOldReplicaSets, if_neg hg1, if_neg hg2, hcl, hsd]⟩
        | none =>
          exact ⟨decide (n + m > 0), by
            simp only [reconcileOldReplicaSets, if_neg hg1, if_neg hg2, hcl, hsd]⟩

theorem notMut_append {l1 l2 : Trace} (h1 : ∀ e ∈ l1, isMutStep e = false)
    (h2 : ∀ e ∈ l2, isMutStep e = false) : ∀ e ∈ l1 ++ l2, isMutStep e = false := by
  intro e he
  rcases List.mem_append.mp he with h | h
  · exact h1 e h
  · exact h2 e h

theorem notMut_single {a : Event} (ha : isMutStep a = false) :
    ∀ e ∈ [a], isMutStep e = false := by
  intro e he
  simp only [List.mem_singleton] at he
  exact he ▸ ha

theorem passShape_of_front (pre l : Trace) (h : ∀ e ∈ pre, isMutStep e = false)
    (hl : passShape l = true) : passShape (pre ++ l) = true := by
  rw [passShape_append pre l h]
  exact hl

theorem passShape_cons_notMut (a : Event) (l : Trace) (ha : isMutStep a = false) :
    passShape (a :: l) = passShape l := by
  simp [passShape, ha]

theorem passShape_of_notMut (l : Trace) (h : ∀ e ∈ l, isMutStep e = false) :
    passShape l = true := by
  have := passShape_append l [] h
  simpa using this

theorem endsSynced_append (l l2 : Trace) (h : endsSynced l2 = true) :
    endsSynced (l ++ l2) = true := by
  induction l with
  | nil => simpa using h
  | cons e l ih =>
    rw [List.cons_append]
    cases hl : l ++ l2 with
    | nil =>
      rcases List.append_eq_nil.mp hl with ⟨rfl, rfl⟩
      cases h
    | cons f rest =>
      rw [hl] at ih
      simpa [endsSynced] using ih

theorem rolloutBlueGreenTail_shape (env : Env) (r : Rollout) (allRSs : List ReplicaSet)
    (newRS : ReplicaSet) (oldRSs : List ReplicaSet) (previewSvc activeSvc : Option Service)
    (tr : Trace) (h : ∀ e ∈ tr, isMutStep e = false) :
    passShape (rolloutBlueGreenTail env r allRSs newRS oldRSs previewSvc activeSvc tr).1 = true ∧
    (endsSynced (rolloutBlueGreenTail env r allRSs newRS oldRSs previewSvc activeSvc tr).1 = true ∨
      (rolloutBlueGreenTail env r allRSs newRS oldRSs previewSvc activeSvc tr).2 ≠ none) := by
  cases hact : env.reconcileActiveService r newRS previewSvc activeSvc with
  | error e =>
    refine ⟨?_, Or.inr ?_⟩
    · simp only [rolloutBlueGreenTail, hact]
      exact passShape_of_notMut tr h
    · simp [rolloutBlueGreenTail, hact]
  | ok switchActive =>
    cases switchActive with
    | true =>
      refine ⟨?_, Or.inl ?_⟩
      · simp only [rolloutBlueGreenTail, hact, if_true, List.append_assoc, List.singleton_append]
        rw [passShape_append tr _ h]
        decide
      · simp only [rolloutBlueGreenTail, hact, if_true]
        exact endsSynced_append _ _ (by decide)
    | false =>
      rcases hold : reconcileOldReplicaSets env allRSs (filterActiveReplicaSets oldRSs) newRS r
        with ⟨res, trOld⟩
      have hOldTr : ∀ e ∈ trOld, isMutStep e = false := by
        have := scaled_trace_reconcileOld env allRSs (filterActiveReplicaSets oldRSs) newRS r
        rw [hold] at this
        exact notMut_of_scaled this
      cases res with
      | error e =>
        refine ⟨?_, Or.inr ?_⟩
        · simp only [rolloutBlueGreenTail, hact, Bool.false_eq_true, if_false, hold]
          exact passShape_of_notMut _
            (notMut_append (notMut_append h (notMut_single rfl)) hOldTr)
        · simp [rolloutBlueGreenTail, hact, hold]
      | ok scaledDown =>
        cases scaledDown with
        | true =>
          refine ⟨?_, Or.inl ?_⟩
          · simp only [rolloutBlueGreenTail, hact, Bool.false_eq_true, if_false, if_true, hold,
              List.append_assoc, List.singleton_append]
            rw [passShape_append tr _ h, List.cons_append,
              passShape_cons_notMut (Event.activeSvcReconciled false) _ rfl,
              passShape_append trOld _ hOldTr]
            decide
          · simp only [rolloutBlueGreenTail, hact, Bool.false_eq_true, if_false, if_true, hold]
            exact endsSynced_append _ _ (by decide)
        | false =>
          cases hcomp : env.rolloutComplete r with
          | false =>
            refine ⟨?_, Or.inl ?_⟩
            · simp only [rolloutBlueGreenTail, hact, Bool.false_eq_true, if_false, if_true, hold,
                hcomp, List.append_assoc, List.singleton_append]
              rw [passShape_append tr _ h, List.cons_append,
                passShape_cons_notMut (Event.activeSvcReconciled false) _ rfl,
                passShape_append trOld _ hOldTr]
              decide
            · simp only [rolloutBlueGreenTail, hact, Bool.false_eq_true, if_false, if_true, hold, hcomp]
              exact endsSynced_append _ _ (by decide)
          | true =>
            cases hclean : env.cleanupRollouts oldRSs r with
            | some e =>
              refine ⟨?_, Or.inr ?_⟩
              · simp only [rolloutBlueGreenTail, hact, Bool.false_eq_true, if_false, if_true, hold,
                  hcomp, hclean, List.append_assoc, List.singleton_append]
                rw [passShape_append tr _ h, List.cons_append,
                  passShape_cons_notMut (Event.activeSvcReconciled false) _ rfl,
                  passShape_append trOld _ hOldTr]
                decide
              · simp [rolloutBlueGreenTail, hact, hold, hcomp, hclean]
            | none =>
              refine ⟨?_, Or.inl ?_⟩
              · simp only [rolloutBlueGreenTail, hact, Bool.false_eq_true, if_false, if_true, hold,
                  hcomp, hclean, List.append_assoc, List.singleton_append]
                rw [passShape_append tr _ h, List.cons_append,
                  passShape_cons_notMut (Event.activeSvcReconciled false) _ rfl,
                  passShape_append trOld _ hOldTr]
                decide
              · simp only [rolloutBlueGreenTail, hact, Bool.false_eq_true, if_false, if_true, hold,
                  hcomp, hclean]
                exact endsSynced_append _ _ (by decide)

/-- Claim C3: single-mutating-step short-circuit. Every completed pass has a trace
in which a step event reporting a mutation is immediately followed by the final
status sync and nothing else, so at most one of the scale-up, preview-cutover,
active-cutover and old-group scale-down steps reports a mutation and the first one
to do so ends the pass right after the status sync; and every pass that does not
abort with a collaborator error ends with the status sync. -/
theorem rolloutBlueGreen_single_mutation (env : Env) (r : Rollout)
    (rsList : List ReplicaSet) (tr : Trace) (err : Option GoErr)
    (h : rolloutBlueGreen env r rsList = some (tr, err)) :
    passShape tr = true ∧ (endsSynced tr = true ∨ err ≠ none) := by
  cases hga : env.getAllReplicaSetsAndSyncRevision r rsList true with
  | error e =>
    simp only [rolloutBlueGreen, hga, Option.some.injEq, Prod.mk.injEq] at h
    obtain ⟨rfl, rfl⟩ := h
    exact ⟨rfl, Or.inr (by simp)⟩
  | ok p =>
    obtain ⟨newRS, oldRSs⟩ := p
    cases hgs : env.getPreviewAndActiveServices r with
    | error e =>
      simp only [rolloutBlueGreen, hga, hgs, Option.some.injEq, Prod.mk.injEq] at h
      obtain ⟨rfl, rfl⟩ := h
      exact ⟨rfl, Or.inr (by simp)⟩
    | ok svcs =>
      obtain ⟨previewSvc, activeSvc⟩ := svcs
      rcases hnew : reconcileNewReplicaSet env (oldRSs ++ [newRS]) newRS r with ⟨resNew, trNew⟩
      have hNewTr : ∀ e ∈ trNew, isMutStep e = false := by
        have := scaled_trace_reconcileNew env (oldRSs ++ [newRS]) newRS r
        rw [hnew] at this
        exact notMut_of_scaled this
      cases resNew with
      | error e =>
        simp only [rolloutBlueGreen, hga, hgs, hnew, Option.some.injEq, Prod.mk.injEq] at h
        obtain ⟨rfl, rfl⟩ := h
        exact ⟨passShape_of_notMut trNew hNewTr, Or.inr (by simp)⟩
      | ok scaledUp =>
        cases scaledUp with
        | true =>
          simp only [rolloutBlueGreen, hga, hgs, hnew, Option.some.injEq, Prod.mk.injEq] at h
          obtain ⟨rfl, rfl⟩ := h
          refine ⟨?_, Or.inl (endsSynced_append _ _ (by decide))⟩
          simp only [List.append_assoc, List.singleton_append]
          rw [passShape_append trNew _ hNewTr]
          decide
        | false =>
          have hPre : ∀ e ∈ trNew ++ [Event.newRSReconciled false], isMutStep e = false :=
            notMut_append hNewTr (notMut_single rfl)
          cases previewSvc with
          | none =>
            simp only [rolloutBlueGreen, hga, hgs, hnew, Bool.false_eq_true, if_false,
              Option.some.injEq] at h
            have hsh := rolloutBlueGreenTail_shape env r (oldRSs ++ [newRS]) newRS oldRSs
              none activeSvc (trNew ++ [Event.newRSReconciled false]) hPre
            rw [h] at hsh
            exact hsh
          | some psvc =>
            cases hps : env.reconcilePreviewService r newRS (some psvc) activeSvc with
            | error e =>
              simp only [rolloutBlueGreen, hga, hgs, hnew, hps, Bool.false_eq_true, if_false,
                Option.some.injEq, Prod.mk.injEq] at h
              obtain ⟨rfl, rfl⟩ := h
              exact ⟨passShape_of_notMut _ hPre, Or.inr (by simp)⟩
            | ok switchPrev =>
              cases switchPrev with
              | true =>
                simp only [rolloutBlueGreen, hga, hgs, hnew, hps, Bool.false_eq_true, if_false,
                  Option.some.injEq, Prod.mk.injEq] at h
                obtain ⟨rfl, rfl⟩ := h
                refine ⟨?_, Or.inl (endsSynced_append _ _ (by decide))⟩
                simp only [List.append_assoc, List.singleton_append]
                rw [passShape_append trNew _ hNewTr]
                decide
              | false =>
                cases hgate : reconcileVerifyingPreview activeSvc r with
                | none =>
                  simp only [rolloutBlueGreen, hga, hgs, hnew, hps, hgate,
                    Bool.false_eq_true, if_false] at h
                  exact Option.noConfusion h
                | some verifying =>
                  cases verifying with
                  | true =>
                    simp only [rolloutBlueGreen, hga, hgs, hnew, hps, hgate,
                      Bool.false_eq_true, if_false, Option.some.injEq, Prod.mk.injEq] at h
                    obtain ⟨rfl, rfl⟩ := h
                    refine ⟨?_, Or.inl (endsSynced_append _ _ (by decide))⟩
                    simp only [List.append_assoc, List.singleton_append]
                    rw [passShape_append trNew _ hNewTr]
                    decide
                  | false =>
                    have hPre3 : ∀ e ∈ trNew ++ [Event.newRSReconciled false] ++
                        [Event.previewSvcReconciled false] ++
                        [Event.verifyingPreviewChecked false], isMutStep e = false :=
                      notMut_append (notMut_append hPre (notMut_single rfl))
                        (notMut_single rfl)
                    simp only [rolloutBlueGreen, hga, hgs, hnew, hps, hgate,
                      Bool.false_eq_true, if_false, Option.some.injEq] at h
                    have hsh := rolloutBlueGreenTail_shape env r (oldRSs ++ [newRS]) newRS
                      oldRSs (some psvc) activeSvc
                      (trNew ++ [Event.newRSReconciled false] ++
                        [Event.previewSvcReconciled false] ++
                        [Event.verifyingPreviewChecked false]) hPre3
                    rw [h] at hsh
                    exact hsh

/-- Witness for C3 at a concrete pass in which the scale-down step mutates. -/
theorem rolloutBlueGreen_single_mutation_witness :
    rolloutBlueGreen okEnv rollout0 [] =
      some ([Event.newRSReconciled false, Event.activeSvcReconciled false,
        Event.scaled oldRS0 0, Event.oldRSsReconciled true, Event.statusSynced], none) ∧
    passShape [Event.newRSReconciled false, Event.activeSvcReconciled false,
      Event.scaled oldRS0 0, Event.oldRSsReconciled true, Event.statusSynced] = true ∧
    (endsSynced [Event.newRSReconciled false, Event.activeSvcReconciled false,
      Event.scaled oldRS0 0, Event.oldRSsReconciled true, Event.statusSynced] = true ∨
      (none : Option GoErr) ≠ none) :=
  ⟨by decide,
   (rolloutBlueGreen_single_mutation okEnv rollout0 []
     [Event.newRSReconciled false, Event.activeSvcReconciled false,
       Event.scaled oldRS0 0, Event.oldRSsReconciled true, Event.statusSynced] none
     (by decide)).1,
   (rolloutBlueGreen_single_mutation okEnv rollout0 []
     [Event.newRSReconciled false, Event.activeSvcReconciled false,
       Event.scaled oldRS0 0, Event.oldRSsReconciled true, Event.statusSynced] none
     (by decide)).2⟩
theorem not_mem_of_scaled {l : Trace} (h : ∀ e ∈ l, ∃ rs c, e = Event.scaled rs c)
    {e : Event} (he : ∀ rs c, e ≠ Event.scaled rs c) : e ∉ l := fun hm => by
  obtain ⟨rs, c, heq⟩ := h e hm
  exact he rs c heq

theorem notstep_append {l1 l2 : Trace} {e : Event} (h1 : e ∉ l1) (h2 : e ∉ l2) :
    e ∉ l1 ++ l2 := by
  intro hm
  rcases List.mem_append.mp hm with h | h
  · exact h1 h
  · exact h2 h

/-- Claim C7 (counterexample): with the verification gate held, a preview selector
configured and the active selector already keyed by revision, a pass can abort on a
collaborator error before any step runs; it then returns without syncing status and
without stopping at the verification gate, so the claim that such a pass syncs
status and stops at the gate fails. The precedence part (no active-cutover and no
old-group mutation) does hold, as the trace here is empty. -/
theorem gate_precedence_cex :
    rolloutBlueGreen revFailEnv rolloutPrev [] = some ([], some (GoErr.external "rev" "boom")) ∧
    revFailEnv.getPreviewAndActiveServices rolloutPrev =
      Except.ok (some previewSvc0, some activeSvc0) ∧
    rolloutPrev.spec.strategy.blueGreenStrategy.previewService ≠ "" ∧
    (activeSvc0.selector.lookup DefaultRolloutUniqueLabelKey).isSome = true ∧
    rolloutPrev.status.verifyingPreview = some true ∧
    Event.statusSynced ∉ ([] : Trace) :=
  ⟨by decide, rfl, by decide, by decide, rfl, by simp⟩

/-- Claim C7 (amended): gate precedence. In every completed pass in which the
verification flag is true, the service lookup yields a preview selector and an
active selector whose selector map carries the revision key, and the preview
selector name is non-empty, the active-cutover step and the old-group step are
never invoked (no event of theirs appears in the trace, so neither performs a
mutation); and if additionally the pass returns no error and neither the scale-up
step nor the preview cutover reports a mutation, the pass stops at the verification
gate right after the status sync. -/
theorem gate_precedence (env : Env) (r : Rollout) (rsList : List ReplicaSet)
    (tr : Trace) (err : Option GoErr) (psvc asvc : Service)
    (hrun : rolloutBlueGreen env r rsList = some (tr, err))
    (hsvcs : env.getPreviewAndActiveServices r = Except.ok (some psvc, some asvc))
    (hname : r.spec.strategy.blueGreenStrategy.previewService ≠ "")
    (hkey : (asvc.selector.lookup DefaultRolloutUniqueLabelKey).isSome = true)
    (hver : r.status.verifyingPreview = some true) :
    (∀ b, Event.activeSvcReconciled b ∉ tr) ∧
    (∀ b, Event.oldRSsReconciled b ∉ tr) ∧
    (err = none → Event.newRSReconciled true ∉ tr →
      Event.previewSvcReconciled true ∉ tr →
      ∃ pre, tr = pre ++ [Event.verifyingPreviewChecked true, Event.statusSynced]) := by
  have hgate : reconcileVerifyingPreview (some asvc) r = some true := by
    simp [reconcileVerifyingPreview, hname, hkey, hver]
  cases hga : env.getAllReplicaSetsAndSyncRevision r rsList true with
  | error e =>
    simp only [rolloutBlueGreen, hga, Option.some.injEq, Prod.mk.injEq] at hrun
    obtain ⟨rfl, rfl⟩ := hrun
    exact ⟨fun b => by simp, fun b => by simp, fun h1 => Option.noConfusion h1⟩
  | ok p =>
    obtain ⟨newRS, oldRSs⟩ := p
    rcases hnew : reconcileNewReplicaSet env (oldRSs ++ [newRS]) newRS r with ⟨resNew, trNew⟩
    have hNewSc : ∀ e ∈ trNew, ∃ rs c, e = Event.scaled rs c := by
      have := scaled_trace_reconcileNew env (oldRSs ++ [newRS]) newRS r
      rw [hnew] at this
      exact this
    cases resNew with
    | error e =>
      simp only [rolloutBlueGreen, hga, hsvcs, hnew, Option.some.injEq, Prod.mk.injEq] at hrun
      obtain ⟨rfl, rfl⟩ := hrun
      refine ⟨fun b => not_mem_of_scaled hNewSc (fun rs c => by simp),
        fun b => not_mem_of_scaled hNewSc (fun rs c => by simp),
        fun h1 => Option.noConfusion h1⟩
    | ok scaledUp =>
      cases scaledUp with
      | true =>
        simp only [rolloutBlueGreen, hga, hsvcs, hnew, Option.some.injEq, Prod.mk.injEq] at hrun
        obtain ⟨rfl, rfl⟩ := hrun
        refine ⟨fun b => notstep_append (notstep_append
            (not_mem_of_scaled hNewSc (fun rs c => by simp)) (by simp)) (by simp),
          fun b => notstep_append (notstep_append
            (not_mem_of_scaled hNewSc (fun rs c => by simp)) (by simp)) (by simp),
          fun _ h2 _ => ?_⟩
        exact absurd (by simp : Event.newRSReconciled true ∈
          trNew ++ [Event.newRSReconciled true] ++ [Event.statusSynced]) h2
      | false =>
        cases hps : env.reconcilePreviewService r newRS (some psvc) (some asvc) with
        | error e =>
          simp only [rolloutBlueGreen, hga, hsvcs, hnew, hps, Bool.false_eq_true, if_false,
            Option.some.injEq, Prod.mk.injEq] at hrun
          obtain ⟨rfl, rfl⟩ := hrun
          exact ⟨fun b => notstep_append
              (not_mem_of_scaled hNewSc (fun rs c => by simp)) (by simp),
            fun b => notstep_append
              (not_mem_of_scaled hNewSc (fun rs c => by simp)) (by simp),
            fun h1 => Option.noConfusion h1⟩
        | ok switchPrev =>
          cases switchPrev with
          | true =>
            simp only [rolloutBlueGreen, hga, hsvcs, hnew, hps, Bool.false_eq_true, if_false,
              if_true, Option.some.injEq, Prod.mk.injEq] at hrun
            obtain ⟨rfl, rfl⟩ := hrun
            refine ⟨fun b => notstep_append (notstep_append (notstep_append
                (not_mem_of_scaled hNewSc (fun rs c => by simp)) (by simp)) (by simp))
                (by simp),
              fun b => notstep_append (notstep_append (notstep_append
                (not_mem_of_scaled hNewSc (fun rs c => by simp)) (by simp)) (by simp))
                (by simp),
              fun _ _ h3 => ?_⟩
            exact absurd (by simp : Event.previewSvcReconciled true ∈
              trNew ++ [Event.newRSReconciled false] ++ [Event.previewSvcReconciled true] ++
                [Event.statusSynced]) h3
          | false =>
            simp only [rolloutBlueGreen, hga, hsvcs, hnew, hps, hgate, Bool.false_eq_true,
              if_false, if_true, Option.some.injEq, Prod.mk.injEq] at hrun
            obtain ⟨rfl, rfl⟩ := hrun
            refine ⟨fun b => notstep_append (notstep_append (notstep_append
                (notstep_append (not_mem_of_scaled hNewSc (fun rs c => by simp))
                  (by simp)) (by simp)) (by simp)) (by simp),
              fun b => notstep_append (notstep_append (notstep_append
                (notstep_append (not_mem_of_scaled hNewSc (fun rs c => by simp))
                  (by simp)) (by simp)) (by simp)) (by simp),
              fun _ _ _ => ?_⟩
            exact ⟨trNew ++ [Event.newRSReconciled false,
              Event.previewSvcReconciled false], by simp⟩

/-- Witness for C7 (amended) at a concrete pass held at the gate. -/
theorem gate_precedence_witness :
    ((∀ b, Event.activeSvcReconciled b ∉
        ([Event.newRSReconciled false, Event.previewSvcReconciled false,
          Event.verifyingPreviewChecked true, Event.statusSynced] : Trace)) ∧
      (∀ b, Event.oldRSsReconciled b ∉
        ([Event.newRSReconciled false, Event.previewSvcReconciled false,
          Event.verifyingPreviewChecked true, Event.statusSynced] : Trace)) ∧
      ((none : Option GoErr) = none →
        Event.newRSReconciled true ∉
          ([Event.newRSReconciled false, Event.previewSvcReconciled false,
            Event.verifyingPreviewChecked true, Event.statusSynced] : Trace) →
        Event.previewSvcReconciled true ∉
          ([Event.newRSReconciled false, Event.previewSvcReconciled false,
            Event.verifyingPreviewChecked true, Event.statusSynced] : Trace) →
        ∃ pre, ([Event.newRSReconciled false, Event.previewSvcReconciled false,
          Event.verifyingPreviewChecked true, Event.statusSynced] : Trace) =
          pre ++ [Event.verifyingPreviewChecked true, Event.statusSynced])) :=
  gate_precedence gateEnv rolloutPrev []
    [Event.newRSReconciled false, Event.previewSvcReconciled false,
      Event.verifyingPreviewChecked true, Event.statusSynced] none previewSvc0 activeSvc0
    (by decide) rfl (by decide) (by decide) rfl

theorem error_propagation_reconcileOld_swallows (env : Env)
    (allRSs oldRSs : List ReplicaSet) (newRS : ReplicaSet) (rollout : Rollout)
    (out : List ReplicaSet) (n : Int) (tr : Trace) (m : Int) (e : GoErr) (tr2 : Trace)
    (h1 : getReplicaCountForReplicaSets oldRSs ≠ 0)
    (h2 : env.isSaturated rollout newRS = true)
    (hcl : cleanupUnhealthyReplicas env oldRSs rollout = ((out, n, none), tr))
    (hsd : scaleDownOldReplicaSetsForBlueGreen env (out ++ [newRS]) out rollout =
      ((m, some e), tr2)) :
    reconcileOldReplicaSets env allRSs oldRSs newRS rollout = (Except.ok false, tr ++ tr2) := by
  simp only [reconcileOldReplicaSets, h1, h2, if_false, hcl, hsd, Bool.true_eq_false]

/-- Claim C2 (counterexample): an error from the Safe Scale-Down Step is not
propagated. With every collaborator succeeding except scaling-to-zero, the pass
swallows the scale-down failure inside reconcileOldReplicaSets and completes with a
nil error after syncing status. -/
theorem error_propagation_cex :
    scaleDownFailEnv.scaleErr oldRS0 0 rollout0 = some (GoErr.external "scale" "boom") ∧
    rolloutBlueGreen scaleDownFailEnv rollout0 [] =
      some ([Event.newRSReconciled false, Event.activeSvcReconciled false,
        Event.oldRSsReconciled false, Event.statusSynced], none) :=
  ⟨rfl, by decide⟩

theorem endsSynced_append_singleton (l : Trace) (a : Event) :
    endsSynced (l ++ [a]) = (a == Event.statusSynced) := by
  induction l with
  | nil => rfl
  | cons e l ih =>
    cases l with
    | nil => rfl
    | cons f l2 => simpa [endsSynced] using ih

theorem endsSynced_of_scaled (l : Trace) (h : ∀ e ∈ l, ∃ rs c, e = Event.scaled rs c) :
    endsSynced l = false := by
  induction l with
  | nil => rfl
  | cons e l ih =>
    cases l with
    | nil =>
      obtain ⟨rs, c, rfl⟩ := h e (by simp)
      rfl
    | cons f l2 =>
      have := ih (fun x hx => h x (by simp [hx]))
      simpa [endsSynced] using this

theorem endsSynced_append_right (l l2 : Trace) (h : l2 ≠ []) :
    endsSynced (l ++ l2) = endsSynced l2 := by
  induction l with
  | nil => rfl
  | cons e l ih =>
    rw [List.cons_append]
    cases hl : l ++ l2 with
    | nil =>
      rcases List.append_eq_nil.mp hl with ⟨rfl, rfl⟩
      exact absurd rfl h
    | cons f rest =>
      rw [hl] at ih
      simpa [endsSynced] using ih

theorem endsSynced_cons_scaled (a : Event) (ha : (a == Event.statusSynced) = false)
    (l : Trace) (hl : ∀ e ∈ l, ∃ rs c, e = Event.scaled rs c) :
    endsSynced (a :: l) = false := by
  cases l with
  | nil => simpa [endsSynced] using ha
  | cons f l2 =>
    have := endsSynced_of_scaled (f :: l2) hl
    simpa [endsSynced] using this

theorem rolloutBlueGreenTail_sync (env : Env) (r : Rollout) (allRSs : List ReplicaSet)
    (newRS : ReplicaSet) (oldRSs : List ReplicaSet) (previewSvc activeSvc : Option Service)
    (trIn tr : Trace) (err : Option GoErr)
    (h : rolloutBlueGreenTail env r allRSs newRS oldRSs previewSvc activeSvc trIn = (tr, err))
    (hin : endsSynced trIn = false) (hsync : endsSynced tr = true) :
    err = env.syncRolloutStatus allRSs newRS previewSvc activeSvc r := by
  cases hact : env.reconcileActiveService r newRS previewSvc activeSvc with
  | error e =>
    simp only [rolloutBlueGreenTail, hact, Prod.mk.injEq] at h
    obtain ⟨rfl, rfl⟩ := h
    rw [hin] at hsync
    exact absurd hsync (by simp)
  | ok switchActive =>
    cases switchActive with
    | true =>
      simp only [rolloutBlueGreenTail, hact, if_true, Prod.mk.injEq] at h
      obtain ⟨rfl, rfl⟩ := h
      rfl
    | false =>
      rcases hold : reconcileOldReplicaSets env allRSs (filterActiveReplicaSets oldRSs) newRS r
        with ⟨res, trOld⟩
      have hOldSc : ∀ e ∈ trOld, ∃ rs c, e = Event.scaled rs c := by
        have := scaled_trace_reconcileOld env allRSs (filterActiveReplicaSets oldRSs) newRS r
        rw [hold] at this
        exact this
      cases res with
      | error e =>
        simp only [rolloutBlueGreenTail, hact, Bool.false_eq_true, if_false, hold,
          Prod.mk.injEq] at h
        obtain ⟨rfl, rfl⟩ := h
        cases trOld with
        | nil =>
          rw [List.append_nil, endsSynced_append_singleton] at hsync
          exact absurd hsync (by decide)
        | cons f rest =>
          rw [endsSynced_append_right _ _ (by simp),
            endsSynced_of_scaled _ hOldSc] at hsync
          exact absurd hsync (by simp)
      | ok scaledDown =>
        cases scaledDown with
        | true =>
          simp only [rolloutBlueGreenTail, hact, Bool.false_eq_true, if_false, if_true,
            hold, Prod.mk.injEq] at h
          obtain ⟨rfl, rfl⟩ := h
          rfl
        | false =>
          cases hcomp : env.rolloutComplete r with
          | false =>
            simp only [rolloutBlueGreenTail, hact, Bool.false_eq_true, if_false, if_true,
              hold, hcomp, Prod.mk.injEq] at h
            obtain ⟨rfl, rfl⟩ := h
            rfl
          | true =>
            cases hclean : env.cleanupRollouts oldRSs r with
            | some e =>
              simp only [rolloutBlueGreenTail, hact, Bool.false_eq_true, if_false, if_true,
                hold, hcomp, hclean, Prod.mk.injEq] at h
              obtain ⟨rfl, rfl⟩ := h
              rw [endsSynced_append_right _ _ (by simp)] at hsync
              exact absurd hsync (by decide)
            | none =>
              simp only [rolloutBlueGreenTail, hact, Bool.false_eq_true, if_false, if_true,
                hold, hcomp, hclean, Prod.mk.injEq] at h
              obtain ⟨rfl, rfl⟩ := h
              rfl

theorem rolloutBlueGreen_sync_result (env : Env) (r : Rollout) (rsList : List ReplicaSet)
    (newRS : ReplicaSet) (oldRSs : List ReplicaSet) (previewSvc activeSvc : Option Service)
    (tr : Trace) (err : Option GoErr)
    (hga : env.getAllReplicaSetsAndSyncRevision r rsList true = Except.ok (newRS, oldRSs))
    (hgs : env.getPreviewAndActiveServices r = Except.ok (previewSvc, activeSvc))
    (h : rolloutBlueGreen env r rsList = some (tr, err))
    (hsync : endsSynced tr = true) :
    err = env.syncRolloutStatus (oldRSs ++ [newRS]) newRS previewSvc activeSvc r := by
  rcases hnew : reconcileNewReplicaSet env (oldRSs ++ [newRS]) newRS r with ⟨resNew, trNew⟩
  have hNewSc : ∀ e ∈ trNew, ∃ rs c, e = Event.scaled rs c := by
    have := scaled_trace_reconcileNew env (oldRSs ++ [newRS]) newRS r
    rw [hnew] at this
    exact this
  cases resNew with
  | error e =>
    simp only [rolloutBlueGreen, hga, hgs, hnew, Option.some.injEq, Prod.mk.injEq] at h
    obtain ⟨rfl, rfl⟩ := h
    rw [endsSynced_of_scaled trNew hNewSc] at hsync
    exact absurd hsync (by simp)
  | ok scaledUp =>
    cases scaledUp with
    | true =>
      simp only [rolloutBlueGreen, hga, hgs, hnew, if_true, Option.some.injEq,
        Prod.mk.injEq] at h
      obtain ⟨rfl, rfl⟩ := h
      rfl
    | false =>
      cases previewSvc with
      | none =>
        simp only [rolloutBlueGreen, hga, hgs, hnew, Bool.false_eq_true, if_false,
          Option.some.injEq] at h
        exact rolloutBlueGreenTail_sync env r (oldRSs ++ [newRS]) newRS oldRSs
          none activeSvc _ tr err h
          (by rw [endsSynced_append_right _ _ (by simp)]; decide) hsync
      | some psvc =>
        cases hps : env.reconcilePreviewService r newRS (some psvc) activeSvc with
        | error e =>
          simp only [rolloutBlueGreen, hga, hgs, hnew, hps, Bool.false_eq_true, if_false,
            Option.some.injEq, Prod.mk.injEq] at h
          obtain ⟨rfl, rfl⟩ := h
          rw [endsSynced_append_right _ _ (by simp)] at hsync
          exact absurd hsync (by decide)
        | ok switchPrev =>
          cases switchPrev with
          | true =>
            simp only [rolloutBlueGreen, hga, hgs, hnew, hps, Bool.false_eq_true, if_false,
              if_true, Option.some.injEq, Prod.mk.injEq] at h
            obtain ⟨rfl, rfl⟩ := h
            rfl
          | false =>
            cases hgate : reconcileVerifyingPreview activeSvc r with
            | none =>
              simp only [rolloutBlueGreen, hga, hgs, hnew, hps, hgate,
                Bool.false_eq_true, if_false] at h
              exact Option.noConfusion h
            | some verifying =>
              cases verifying with
              | true =>
                simp only [rolloutBlueGreen, hga, hgs, hnew, hps, hgate,
                  Bool.false_eq_true, if_false, if_true, Option.some.injEq,
                  Prod.mk.injEq] at h
                obtain ⟨rfl, rfl⟩ := h
                rfl
              | false =>
                simp only [rolloutBlueGreen, hga, hgs, hnew, hps, hgate,
                  Bool.false_eq_true, if_false, Option.some.injEq] at h
                exact rolloutBlueGreenTail_sync env r (oldRSs ++ [newRS]) newRS oldRSs
                  (some psvc) activeSvc _ tr err h
                  (by rw [endsSynced_append_right _ _ (by simp)]; decide) hsync

/-- Claim C2 (amended): error propagation. Every collaborator error aborts the
pass and is returned to the caller unchanged, except inside
reconcileOldReplicaSets, which never returns an error: a failure of the
unhealthy-eviction step and a failure of the Safe Scale-Down Step are each
replaced by the pair of false and a nil error, so a scale-down error is not
propagated to the caller of rolloutBlueGreen. Propagation is proved for every
collaborator call site of the pass: revision sync, service lookup, the ramp
function and the scale call inside the new-group step, the preview cutover, the
active cutover, the terminal cleanup, and the status sync (whose result is
returned verbatim by every pass that reaches a sync). -/
theorem error_propagation (env : Env) :
    (∀ (allRSs oldRSs : List ReplicaSet) (newRS : ReplicaSet) (rollout : Rollout),
      ∃ b, (reconcileOldReplicaSets env allRSs oldRSs newRS rollout).1 = Except.ok b) ∧
    (∀ (allRSs oldRSs : List ReplicaSet) (newRS : ReplicaSet) (rollout : Rollout)
      (out : List ReplicaSet) (n : Int) (tr : Trace) (m : Int) (e : GoErr) (tr2 : Trace),
      getReplicaCountForReplicaSets oldRSs ≠ 0 →
      env.isSaturated rollout newRS = true →
      cleanupUnhealthyReplicas env oldRSs rollout = ((out, n, none), tr) →
      scaleDownOldReplicaSetsForBlueGreen env (out ++ [newRS]) out rollout =
        ((m, some e), tr2) →
      reconcileOldReplicaSets env allRSs oldRSs newRS rollout =
        (Except.ok false, tr ++ tr2)) ∧
    (∀ (r : Rollout) (rsList : List ReplicaSet) (e : GoErr),
      env.getAllReplicaSetsAndSyncRevision r rsList true = Except.error e →
      rolloutBlueGreen env r rsList = some ([], some e)) ∧
    (∀ (r : Rollout) (rsList : List ReplicaSet) (newRS : ReplicaSet)
      (oldRSs : List ReplicaSet) (e : GoErr),
      env.getAllReplicaSetsAndSyncRevision r rsList true = Except.ok (newRS, oldRSs) →
      env.getPreviewAndActiveServices r = Except.error e →
      rolloutBlueGreen env r rsList = some ([], some e)) ∧
    (∀ (r : Rollout) (rsList : List ReplicaSet) (newRS : ReplicaSet)
      (oldRSs : List ReplicaSet) (previewSvc activeSvc : Option Service) (e : GoErr)
      (trNew : Trace),
      env.getAllReplicaSetsAndSyncRevision r rsList true = Except.ok (newRS, oldRSs) →
      env.getPreviewAndActiveServices r = Except.ok (previewSvc, activeSvc) →
      reconcileNewReplicaSet env (oldRSs ++ [newRS]) newRS r = (Except.error e, trNew) →
      rolloutBlueGreen env r rsList = some (trNew, some e)) ∧
    (∀ (allRSs : List ReplicaSet) (newRS : ReplicaSet) (rollout : Rollout) (e : GoErr),
      (newRS.specReplicas > getRolloutReplicasOrDefault rollout →
        env.scaleErr newRS (getRolloutReplicasOrDefault rollout) rollout = some e →
        reconcileNewReplicaSet env allRSs newRS rollout = (Except.error e, [])) ∧
      (newRS.specReplicas < getRolloutReplicasOrDefault rollout →
        env.newRSNewReplicas rollout allRSs newRS = Except.error e →
        reconcileNewReplicaSet env allRSs newRS rollout = (Except.error e, [])) ∧
      (∀ c, newRS.specReplicas < getRolloutReplicasOrDefault rollout →
        env.newRSNewReplicas rollout allRSs newRS = Except.ok c →
        env.scaleErr newRS c rollout = some e →
        reconcileNewReplicaSet env allRSs newRS rollout = (Except.error e, []))) ∧
    (∀ (r : Rollout) (rsList : List ReplicaSet) (newRS : ReplicaSet)
      (oldRSs : List ReplicaSet) (psvc : Service) (activeSvc : Option Service)
      (trNew : Trace) (e : GoErr),
      env.getAllReplicaSetsAndSyncRevision r rsList true = Except.ok (newRS, oldRSs) →
      env.getPreviewAndActiveServices r = Except.ok (some psvc, activeSvc) →
      reconcileNewReplicaSet env (oldRSs ++ [newRS]) newRS r = (Except.ok false, trNew) →
      env.reconcilePreviewService r newRS (some psvc) activeSvc = Except.error e →
      rolloutBlueGreen env r rsList =
        some (trNew ++ [Event.newRSReconciled false], some e)) ∧
    (∀ (r : Rollout) (allRSs : List ReplicaSet) (newRS : ReplicaSet)
      (oldRSs : List ReplicaSet) (previewSvc activeSvc : Option Service) (tr : Trace)
      (e : GoErr),
      env.reconcileActiveService r newRS previewSvc activeSvc = Except.error e →
      rolloutBlueGreenTail env r allRSs newRS oldRSs previewSvc activeSvc tr =
        (tr, some e)) ∧
    (∀ (r : Rollout) (allRSs : List ReplicaSet) (newRS : ReplicaSet)
      (oldRSs : List ReplicaSet) (previewSvc activeSvc : Option Service) (tr : Trace)
      (trOld : Trace) (e : GoErr),
      env.reconcileActiveService r newRS previewSvc activeSvc = Except.ok false →
      reconcileOldReplicaSets env allRSs (filterActiveReplicaSets oldRSs) newRS r =
        (Except.ok false, trOld) →
      env.rolloutComplete r = true →
      env.cleanupRollouts oldRSs r = some e →
      rolloutBlueGreenTail env r allRSs newRS oldRSs previewSvc activeSvc tr =
        (tr ++ [Event.activeSvcReconciled false] ++ trOld ++
          [Event.oldRSsReconciled false] ++ [Event.cleanupRan], some e)) ∧
    (∀ (r : Rollout) (rsList : List ReplicaSet) (newRS : ReplicaSet)
      (oldRSs : List ReplicaSet) (previewSvc activeSvc : Option Service)
      (tr : Trace) (err : Option GoErr),
      env.getAllReplicaSetsAndSyncRevision r rsList true = Except.ok (newRS, oldRSs) →
      env.getPreviewAndActiveServices r = Except.ok (previewSvc, activeSvc) →
      rolloutBlueGreen env r rsList = some (tr, err) →
      endsSynced tr = true →
      err = env.syncRolloutStatus (oldRSs ++ [newRS]) newRS previewSvc activeSvc r) := by
  refine ⟨reconcileOldReplicaSets_isOk env, ?_, ?_, ?_, ?_, ?_, ?_, ?_, ?_, ?_⟩
  · intro allRSs oldRSs newRS rollout out n tr m e tr2 h1 h2 hcl hsd
    exact error_propagation_reconcileOld_swallows env allRSs oldRSs newRS rollout
      out n tr m e tr2 h1 h2 hcl hsd
  · intro r rsList e hga
    simp [rolloutBlueGreen, hga]
  · intro r rsList newRS oldRSs e hga hgs
    simp [rolloutBlueGreen, hga, hgs]
  · intro r rsList newRS oldRSs previewSvc activeSvc e trNew hga hgs hnew
    simp [rolloutBlueGreen, hga, hgs, hnew]
  · intro allRSs newRS rollout e
    refine ⟨fun hgt hs => ?_, fun hlt hr => ?_, fun c hlt hr hs => ?_⟩
    · have hne : newRS.specReplicas ≠ getRolloutReplicasOrDefault rollout := ne_of_gt hgt
      simp [reconcileNewReplicaSet, hne, hgt, scaleReplicaSetAndRecordEvent, hs]
    · have hne : newRS.specReplicas ≠ getRolloutReplicasOrDefault rollout := ne_of_lt hlt
      have hng : ¬ newRS.specReplicas > getRolloutReplicasOrDefault rollout :=
        not_lt_of_gt hlt
      simp [reconcileNewReplicaSet, hne, hng, hr]
    · have hne : newRS.specReplicas ≠ getRolloutReplicasOrDefault rollout := ne_of_lt hlt
      have hng : ¬ newRS.specReplicas > getRolloutReplicasOrDefault rollout :=
        not_lt_of_gt hlt
      simp [reconcileNewReplicaSet, hne, hng, hr, scaleReplicaSetAndRecordEvent, hs]
  · intro r rsList newRS oldRSs psvc activeSvc trNew e hga hgs hnew hps
    simp [rolloutBlueGreen, hga, hgs, hnew, hps]
  · intro r allRSs newRS oldRSs previewSvc activeSvc tr e hact
    simp [rolloutBlueGreenTail, hact]
  · intro r allRSs newRS oldRSs previewSvc activeSvc tr trOld e hact hold hcomp hclean
    simp only [rolloutBlueGreenTail, hact, Bool.false_eq_true, if_false, if_true, hold,
      hcomp, hclean, Prod.mk.injEq]
  · intro r rsList newRS oldRSs previewSvc activeSvc tr err hga hgs h hsync
    exact rolloutBlueGreen_sync_result env r rsList newRS oldRSs previewSvc activeSvc
      tr err hga hgs h hsync

/-- Witness for C2 (amended): every conjunct applied at a concrete input, one
failing collaborator at a time. -/
theorem error_propagation_witness :
    (∃ b, (reconcileOldReplicaSets scaleDownFailEnv [oldRS0, newRS0] [oldRS0] newRS0
      rollout0).1 = Except.ok b) ∧
    reconcileOldReplicaSets scaleDownFailEnv [oldRS0, newRS0] [oldRS0] newRS0 rollout0 =
      (Except.ok false, [] ++ []) ∧
    rolloutBlueGreen revFailEnv rollout0 [] = some ([], some (GoErr.external "rev" "boom")) ∧
    rolloutBlueGreen svcFailEnv rollout0 [] = some ([], some (GoErr.external "svc" "boom")) ∧
    rolloutBlueGreen rampFailEnv rollout3 [] =
      some ([], some (GoErr.external "ramp" "boom")) ∧
    reconcileNewReplicaSet rampFailEnv [oldRS0, newRS0] newRS0 rollout3 =
      (Except.error (GoErr.external "ramp" "boom"), []) ∧
    rolloutBlueGreen prevFailEnv rolloutPrev [] =
      some ([] ++ [Event.newRSReconciled false], some (GoErr.external "prev" "boom")) ∧
    rolloutBlueGreenTail actFailEnv rollout0 [newRS0] newRS0 [] none (some activeSvc0) [] =
      ([], some (GoErr.external "act" "boom")) ∧
    rolloutBlueGreenTail cleanupFailEnv rollout0 [newRS0] newRS0 [] none
      (some activeSvc0) [] =
      ([] ++ [Event.activeSvcReconciled false] ++ [] ++ [Event.oldRSsReconciled false] ++
        [Event.cleanupRan], some (GoErr.external "cleanup" "boom")) ∧
    (none : Option GoErr) =
      okEnv.syncRolloutStatus ([oldRS0] ++ [newRS0]) newRS0 none (some activeSvc0) rollout0 :=
  ⟨(error_propagation scaleDownFailEnv).1 [oldRS0, newRS0] [oldRS0] newRS0 rollout0,
   (error_propagation scaleDownFailEnv).2.1 [oldRS0, newRS0] [oldRS0] newRS0 rollout0
     [oldRS0] 0 [] 0 (GoErr.external "scale" "boom") []
     (by decide) rfl (by decide) (by decide),
   (error_propagation revFailEnv).2.2.1 rollout0 [] (GoErr.external "rev" "boom") rfl,
   (error_propagation svcFailEnv).2.2.2.1 rollout0 [] newRS0 [oldRS0]
     (GoErr.external "svc" "boom") rfl rfl,
   (error_propagation rampFailEnv).2.2.2.2.1 rollout3 [] newRS0 [oldRS0]
     none (some activeSvc0) (GoErr.external "ramp" "boom") []
     rfl rfl rfl,
   ((error_propagation rampFailEnv).2.2.2.2.2.1 [oldRS0, newRS0] newRS0 rollout3
     (GoErr.external "ramp" "boom")).2.1 (by decide) rfl,
   (error_propagation prevFailEnv).2.2.2.2.2.2.1 rolloutPrev [] newRS0 [oldRS0]
     previewSvc0 (some activeSvc0) [] (GoErr.external "prev" "boom")
     rfl rfl rfl rfl,
   (error_propagation actFailEnv).2.2.2.2.2.2.2.1 rollout0 [newRS0] newRS0 []
     none (some activeSvc0) [] (GoErr.external "act" "boom") rfl,
   (error_propagation cleanupFailEnv).2.2.2.2.2.2.2.2.1 rollout0 [newRS0] newRS0 []
     none (some activeSvc0) [] [] (GoErr.external "cleanup" "boom")
     rfl rfl rfl rfl,
   (error_propagation okEnv).2.2.2.2.2.2.2.2.2 rollout0 [] newRS0 [oldRS0]
     none (some activeSvc0)
     [Event.newRSReconciled false, Event.activeSvcReconciled false,
       Event.scaled oldRS0 0, Event.oldRSsReconciled true, Event.statusSynced] none
     rfl rfl (by decide) (by decide)⟩

end BlueGreen
